import Mathlib

/-!
Verification development for the rusty-nes emulator.

Shallow embedding of the Rust sources (src/cpu.rs, src/bus.rs, src/ram.rs,
src/bus/cpu_bus.rs, src/bus/ppu_bus.rs, src/memory/memory.rs,
src/cartridge/cartridge.rs, src/cartridge/mapper.rs, src/ppu/ppu.rs,
src/errors.rs) into Lean.

Machine integers are modelled as `Nat` (or `Int` for the signed
`relative_address`), with explicit `% 256` / `% 65536` wherever the Rust
code performs wrapping 8-bit / 16-bit arithmetic.  Fallible operations
(`Vec` indexing, slice indexing, which panic in Rust when out of bounds)
are modelled with `Option`; `Result<T, AppError>` is modelled with
`Except AppError`.
-/

set_option maxHeartbeats 4000000
set_option maxRecDepth 10000

namespace Nes

/-- errors.rs: `AppError`. -/
inductive AppError where
  | InvalidOpcode
  | InvalidCartridgeHeaderSize
  | InvalidNesFile
  | InvalidCartridgeMapper
deriving DecidableEq, Repr

/-! ## ram.rs: `RAM<SIZE>` (the sole `BusDevice` implementation in the sources).

The const generic `SIZE` becomes the `size` field; the `[u8; SIZE]` array
becomes a total function `Nat → Nat` (array cells hold bytes).  Faithful to
the Rust code for `size > 0` (with `SIZE = 0` the Rust `%` would panic);
every instantiation in the sources uses `SIZE = 65536`. -/
structure RAM where
  size : Nat
  memory : Nat → Nat

/-- ram.rs: `RAM::get_index` — `(address as usize) % SIZE`. -/
def RAM.get_index (r : RAM) (address : Nat) : Nat :=
  address % r.size

/-- ram.rs: `RAM::read`. -/
def RAM.read (r : RAM) (address : Nat) : Nat :=
  r.memory (r.get_index address)

/-- ram.rs: `RAM::write`. -/
def RAM.write (r : RAM) (address value : Nat) : RAM :=
  { r with memory := fun i => if i = r.get_index address then value else r.memory i }

/-! ## bus.rs: `Bus` (the bus owned by the CPU).

`Bus` owns a `Box<dyn BusDevice>`; `RAM` is the only `BusDevice`
implementation in the sources (main.rs passes `RAM::<65536>`), so the
trait object is embedded as a `RAM` field. -/

/-- bus.rs: `RAM_ADDRESS_LO`. -/
def Bus.RAM_ADDRESS_LO : Nat := 0x0000

/-- bus.rs: `RAM_ADDRESS_HI` (note: `0x077F` in the source). -/
def Bus.RAM_ADDRESS_HI : Nat := 0x077F

structure Bus where
  ram : RAM

/-- bus.rs: `Bus::read` — only the range `RAM_ADDRESS_LO..=RAM_ADDRESS_HI`
reaches the RAM; everything else reads 0. -/
def Bus.read (b : Bus) (address : Nat) : Nat :=
  if Bus.RAM_ADDRESS_LO ≤ address ∧ address ≤ Bus.RAM_ADDRESS_HI then
    b.ram.read address
  else 0

/-- bus.rs: `Bus::write` — forwards every address to the RAM, with no
range check. -/
def Bus.write (b : Bus) (address value : Nat) : Bus :=
  { b with ram := b.ram.write address value }

/-! ## cpu.rs: status flags.

The `bitflags!` struct `Status` is a `u8`; it is embedded as a plain `Nat`
holding the flag byte, with the bitflags operations spelled out. -/

/-- cpu.rs: `Status::CARRY`. -/
def Status.CARRY : Nat := 0x01

/-- cpu.rs: `Status::ZERO`. -/
def Status.ZERO : Nat := 0x02

/-- cpu.rs: `Status::INTERRUPT`. -/
def Status.INTERRUPT : Nat := 0x04

/-- cpu.rs: `Status::DECIMAL`. -/
def Status.DECIMAL : Nat := 0x08

/-- cpu.rs: `Status::BREAK`. -/
def Status.BREAK : Nat := 0x10

/-- cpu.rs: `Status::UNUSED`. -/
def Status.UNUSED : Nat := 0x20

/-- cpu.rs: `Status::OVERFLOW`. -/
def Status.OVERFLOW : Nat := 0x40

/-- cpu.rs: `Status::NEGATIVE`. -/
def Status.NEGATIVE : Nat := 0x80

/-- bitflags: `Status::insert` — `bits |= flag`. -/
def Status.insert (s flag : Nat) : Nat := s ||| flag

/-- bitflags: `Status::remove` — `bits &= !flag` (`!` on `u8`). -/
def Status.remove (s flag : Nat) : Nat := s &&& (0xFF ^^^ flag)

/-- bitflags: `Status::contains` — `bits & flag == flag`. -/
def Status.contains (s flag : Nat) : Bool := s &&& flag == flag

/-- bitflags: `Status::from_bits_truncate` — keeps only the defined flag
bits; all eight bits of the `u8` are defined flags, so this masks to a byte. -/
def Status.from_bits_truncate (b : Nat) : Nat := b &&& 0xFF

/-! ## instructions module: `AddressingMode`, `Instruction`, `Opcode`.

The `instructions` module itself is not among the provided sources; the
two enums are reconstructed exactly from the exhaustive `match` arms in
cpu.rs (`execute_addressing_mode`, `execute_instruction`).  The opcode
table `Opcode::decode` is missing and is left as a parameter `decode`
of `CPU.clock`. -/

inductive AddressingMode where
  | Implied | Accumulator | Immediate | Relative
  | ZeroPage | ZeroPageX | ZeroPageY
  | Absolute | AbsoluteX | AbsoluteY
  | Indirect | IndirectX | IndirectY
deriving DecidableEq, Repr

inductive Instruction where
  | NOP | CLC | CLD | CLI | CLV | SEC | SED | SEI
  | TAX | TAY | TXA | TYA | TSX | TXS
  | INX | INY | DEX | DEY
  | LDA | LDX | LDY | STA | STX | STY
  | AND | ORA | EOR
  | CMP | CPX | CPY
  | BCS | BCC | BEQ | BMI | BNE | BPL | BVC | BVS
  | ADC | SBC
  | ASL | LSR | ROL | ROR
  | INC | DEC
  | JMP
  | PHA | PHP | PLA | PLP
  | JSR | RTS | RTI
  | BRK | BIT
deriving DecidableEq, Repr

structure Opcode where
  instruction : Instruction
  addressing_mode : AddressingMode
  cycles : Nat
deriving DecidableEq, Repr

/-! ## cpu.rs: the CPU itself. -/

/-- cpu.rs: `STACK_POINTER_INITIAL_OFFSET`. -/
def STACK_POINTER_INITIAL_OFFSET : Nat := 0xFD

/-- cpu.rs: `STACK_POINTER_ADDRESS`. -/
def STACK_POINTER_ADDRESS : Nat := 0x0100

/-- cpu.rs: `IRQ_VECTOR_ADDRESS_LO`. -/
def IRQ_VECTOR_ADDRESS_LO : Nat := 0xFFFE

/-- cpu.rs: `IRQ_VECTOR_ADDRESS_HI`. -/
def IRQ_VECTOR_ADDRESS_HI : Nat := 0xFFFF

/-- cpu.rs: `NMI_VECTOR_ADDRESS_LO`. -/
def NMI_VECTOR_ADDRESS_LO : Nat := 0xFFFA

/-- cpu.rs: `NMI_VECTOR_ADDRESS_HI`. -/
def NMI_VECTOR_ADDRESS_HI : Nat := 0xFFFB

/-- cpu.rs: `RESET_VECTOR_ADDRESS_LO`. -/
def RESET_VECTOR_ADDRESS_LO : Nat := 0xFFFC

/-- cpu.rs: `RESET_VECTOR_ADDRESS_HI`. -/
def RESET_VECTOR_ADDRESS_HI : Nat := 0xFFFD

structure CPU where
  a : Nat
  x : Nat
  y : Nat
  sp : Nat
  pc : Nat
  status : Nat
  bus : Bus
  cycles : Nat
  absolute_address : Nat
  relative_address : Int

/-- Rust `u8::wrapping_add` (operands are bytes in the source). -/
def wrapping_add8 (a b : Nat) : Nat := (a + b) % 256

/-- Rust `u8::wrapping_sub` (equals the Rust result for operands < 256). -/
def wrapping_sub8 (a b : Nat) : Nat := (a + 256 - b % 256) % 256

/-- Rust `u16::wrapping_add`. -/
def wrapping_add16 (a b : Nat) : Nat := (a + b) % 65536

/-- Rust `u16::wrapping_sub` (equals the Rust result for operands < 65536). -/
def wrapping_sub16 (a b : Nat) : Nat := (a + 65536 - b % 65536) % 65536

/-- Rust `byte as i8` (sign-extension of a byte into a signed value). -/
def u8_as_i8 (b : Nat) : Int := if b % 256 < 128 then (b % 256 : Int) else (b % 256 : Int) - 256

/-- Rust `i16 as u16` (two's-complement truncation; `Int.emod` is
non-negative for a positive modulus). -/
def i16_as_u16 (r : Int) : Nat := (r % 65536).toNat

/-- cpu.rs: `CPU::new`. -/
def CPU.new (bus : Bus) : CPU :=
  let lo := bus.read RESET_VECTOR_ADDRESS_LO
  let hi := bus.read RESET_VECTOR_ADDRESS_HI
  { a := 0, x := 0, y := 0, sp := STACK_POINTER_INITIAL_OFFSET,
    pc := (hi <<< 8) ||| lo,
    status := Status.UNUSED ||| Status.INTERRUPT,
    bus := bus, cycles := 0, absolute_address := 0, relative_address := 0 }

/-- cpu.rs: `CPU::increment_pc`. -/
def CPU.increment_pc (s : CPU) : CPU :=
  { s with pc := wrapping_add16 s.pc 1 }

/-- cpu.rs: `CPU::set_status_flag`. -/
def CPU.set_status_flag (s : CPU) (flag : Nat) (condition : Bool) : CPU :=
  if condition then { s with status := Status.insert s.status flag }
  else { s with status := Status.remove s.status flag }

/-- cpu.rs: `CPU::get_status_flag`. -/
def CPU.get_status_flag (s : CPU) (flag : Nat) : Bool :=
  Status.contains s.status flag

/-- cpu.rs: `CPU::get_bytes_to_address`. -/
def CPU.get_bytes_to_address (hi lo : Nat) : Nat :=
  (hi <<< 8) ||| lo

/-- cpu.rs: `CPU::get_stack_address`. -/
def CPU.get_stack_address (s : CPU) : Nat :=
  STACK_POINTER_ADDRESS ||| s.sp

/-- cpu.rs: `CPU::write_to_stack`. -/
def CPU.write_to_stack (s : CPU) (value : Nat) : CPU :=
  let s := { s with bus := s.bus.write s.get_stack_address value }
  { s with sp := wrapping_sub8 s.sp 1 }

/-- cpu.rs: `CPU::read_from_stack` (returns the byte and the new state). -/
def CPU.read_from_stack (s : CPU) : Nat × CPU :=
  let s := { s with sp := wrapping_add8 s.sp 1 }
  (s.bus.read s.get_stack_address, s)

/-- cpu.rs: `CPU::is_zero`. -/
def CPU.is_zero (value : Nat) : Bool := value == 0x00

/-- cpu.rs: `CPU::is_negative`. -/
def CPU.is_negative (value : Nat) : Bool := value &&& 0x80 != 0

/-- cpu.rs: `CPU::is_overflow`. -/
def CPU.is_overflow (value : Nat) : Bool := value &&& 0x40 != 0

/-- cpu.rs: `CPU::is_bit0_set`. -/
def CPU.is_bit0_set (value : Nat) : Bool := value &&& 0x01 != 0

/-- cpu.rs: `CPU::update_zero_negative_flags`. -/
def CPU.update_zero_negative_flags (s : CPU) (value : Nat) : CPU :=
  let s := s.set_status_flag Status.ZERO (CPU.is_zero value)
  s.set_status_flag Status.NEGATIVE (CPU.is_negative value)

/-- cpu.rs: `CPU::execute_addressing_mode`. -/
def CPU.execute_addressing_mode (s : CPU) (addressing_mode : AddressingMode) : CPU :=
  match addressing_mode with
  | .Implied => s
  | .Accumulator => s
  | .Immediate =>
    let s := { s with absolute_address := s.pc }
    s.increment_pc
  | .Relative =>
    let offset := u8_as_i8 (s.bus.read s.pc)
    let s := s.increment_pc
    { s with relative_address := offset }
  | .ZeroPage =>
    let s := { s with absolute_address := s.bus.read s.pc }
    s.increment_pc
  | .ZeroPageX =>
    let s := { s with absolute_address := wrapping_add8 (s.bus.read s.pc) s.x }
    s.increment_pc
  | .ZeroPageY =>
    let s := { s with absolute_address := wrapping_add8 (s.bus.read s.pc) s.y }
    s.increment_pc
  | .Absolute =>
    let lo := s.bus.read s.pc
    let s := s.increment_pc
    let hi := s.bus.read s.pc
    let s := s.increment_pc
    { s with absolute_address := CPU.get_bytes_to_address hi lo }
  | .AbsoluteX =>
    let lo := s.bus.read s.pc
    let s := s.increment_pc
    let hi := s.bus.read s.pc
    let s := s.increment_pc
    { s with absolute_address := wrapping_add16 (CPU.get_bytes_to_address hi lo) s.x }
  | .AbsoluteY =>
    let lo := s.bus.read s.pc
    let s := s.increment_pc
    let hi := s.bus.read s.pc
    let s := s.increment_pc
    { s with absolute_address := wrapping_add16 (CPU.get_bytes_to_address hi lo) s.y }
  | .Indirect =>
    let ptr_lo := s.bus.read s.pc
    let s := s.increment_pc
    let ptr_hi := s.bus.read s.pc
    let s := s.increment_pc
    let ptr := CPU.get_bytes_to_address ptr_hi ptr_lo
    let lo := s.bus.read ptr
    let hi := s.bus.read (wrapping_add16 ptr 1)
    { s with absolute_address := CPU.get_bytes_to_address hi lo }
  | .IndirectX =>
    let base := s.bus.read s.pc
    let s := s.increment_pc
    let ptr := wrapping_add8 base s.x
    let lo := s.bus.read (ptr &&& 0x00FF)
    let hi := s.bus.read (wrapping_add16 ptr 1 &&& 0x00FF)
    { s with absolute_address := CPU.get_bytes_to_address hi lo }
  | .IndirectY =>
    let base := s.bus.read s.pc
    let s := s.increment_pc
    let lo := s.bus.read base
    let hi := s.bus.read (wrapping_add8 base 1 &&& 0x00FF)
    let ptr := CPU.get_bytes_to_address hi lo
    { s with absolute_address := wrapping_add16 ptr s.y }

/-- cpu.rs: `CPU::read_a_or_absolute`. -/
def CPU.read_a_or_absolute (s : CPU) (addressing_mode : AddressingMode) : Nat :=
  match addressing_mode with
  | .Accumulator => s.a
  | _ => s.bus.read s.absolute_address

/-- cpu.rs: `CPU::write_a_or_absolute`. -/
def CPU.write_a_or_absolute (s : CPU) (addressing_mode : AddressingMode) (value : Nat) : CPU :=
  match addressing_mode with
  | .Accumulator => { s with a := value }
  | _ => { s with bus := s.bus.write s.absolute_address value }

/-- cpu.rs: a taken branch — shared body of the eight branch arms. -/
def CPU.take_branch (s : CPU) : CPU :=
  let s := { s with absolute_address := wrapping_add16 s.pc (i16_as_u16 s.relative_address) }
  { s with pc := s.absolute_address }

/-- cpu.rs: `CPU::execute_instruction`. -/
def CPU.execute_instruction (s : CPU) (instruction : Instruction)
    (addressing_mode : AddressingMode) : CPU :=
  match instruction with
  | .NOP => s
  | .CLC => s.set_status_flag Status.CARRY false
  | .CLD => s.set_status_flag Status.DECIMAL false
  | .CLI => s.set_status_flag Status.INTERRUPT false
  | .CLV => s.set_status_flag Status.OVERFLOW false
  | .SEC => s.set_status_flag Status.CARRY true
  | .SED => s.set_status_flag Status.DECIMAL true
  | .SEI => s.set_status_flag Status.INTERRUPT true
  | .TAX =>
    let s := { s with x := s.a }
    s.update_zero_negative_flags s.x
  | .TAY =>
    let s := { s with y := s.a }
    s.update_zero_negative_flags s.y
  | .TXA =>
    let s := { s with a := s.x }
    s.update_zero_negative_flags s.a
  | .TYA =>
    let s := { s with a := s.y }
    s.update_zero_negative_flags s.a
  | .TSX =>
    let s := { s with x := s.sp }
    s.update_zero_negative_flags s.x
  | .TXS => { s with sp := s.x }
  | .INX =>
    let s := { s with x := wrapping_add8 s.x 1 }
    s.update_zero_negative_flags s.x
  | .INY =>
    let s := { s with y := wrapping_add8 s.y 1 }
    s.update_zero_negative_flags s.y
  | .DEX =>
    let s := { s with x := wrapping_sub8 s.x 1 }
    s.update_zero_negative_flags s.x
  | .DEY =>
    let s := { s with y := wrapping_sub8 s.y 1 }
    s.update_zero_negative_flags s.y
  | .LDA =>
    let s := { s with a := s.bus.read s.absolute_address }
    s.update_zero_negative_flags s.a
  | .LDX =>
    let s := { s with x := s.bus.read s.absolute_address }
    s.update_zero_negative_flags s.x
  | .LDY =>
    let s := { s with y := s.bus.read s.absolute_address }
    s.update_zero_negative_flags s.y
  | .STA => { s with bus := s.bus.write s.absolute_address s.a }
  | .STX => { s with bus := s.bus.write s.absolute_address s.x }
  | .STY => { s with bus := s.bus.write s.absolute_address s.y }
  | .AND =>
    let value := s.bus.read s.absolute_address
    let s := { s with a := s.a &&& value }
    s.update_zero_negative_flags s.a
  | .ORA =>
    let value := s.bus.read s.absolute_address
    let s := { s with a := s.a ||| value }
    s.update_zero_negative_flags s.a
  | .EOR =>
    let value := s.bus.read s.absolute_address
    let s := { s with a := s.a ^^^ value }
    s.update_zero_negative_flags s.a
  | .CMP =>
    let value := s.bus.read s.absolute_address
    let result := wrapping_sub8 s.a value
    let s := s.set_status_flag Status.CARRY (s.a ≥ value)
    s.update_zero_negative_flags result
  | .CPX =>
    let value := s.bus.read s.absolute_address
    let result := wrapping_sub8 s.x value
    let s := s.set_status_flag Status.CARRY (s.x ≥ value)
    s.update_zero_negative_flags result
  | .CPY =>
    let value := s.bus.read s.absolute_address
    let result := wrapping_sub8 s.y value
    let s := s.set_status_flag Status.CARRY (s.y ≥ value)
    s.update_zero_negative_flags result
  | .BCS => if s.get_status_flag Status.CARRY then s.take_branch else s
  | .BCC => if !(s.get_status_flag Status.CARRY) then s.take_branch else s
  | .BEQ => if s.get_status_flag Status.ZERO then s.take_branch else s
  | .BMI => if s.get_status_flag Status.NEGATIVE then s.take_branch else s
  | .BNE => if !(s.get_status_flag Status.ZERO) then s.take_branch else s
  | .BPL => if !(s.get_status_flag Status.NEGATIVE) then s.take_branch else s
  | .BVC => if !(s.get_status_flag Status.OVERFLOW) then s.take_branch else s
  | .BVS => if s.get_status_flag Status.OVERFLOW then s.take_branch else s
  | .ADC =>
    let value := s.bus.read s.absolute_address
    let carry := if s.get_status_flag Status.CARRY then 1 else 0
    let result := s.a + value + carry
    let s1 := s.set_status_flag Status.CARRY (result > 0xFF)
    let s2 := s1.set_status_flag Status.OVERFLOW
      ((s.a ^^^ value) &&& 0x80 = 0 ∧ (s.a ^^^ result % 256) &&& 0x80 ≠ 0)
    let s3 := { s2 with a := result % 256 }
    s3.update_zero_negative_flags s3.a
  | .SBC =>
    let value := s.bus.read s.absolute_address
    let carry : Int := if s.get_status_flag Status.CARRY then 1 else 0
    let result : Int := (s.a : Int) - (value : Int) - (1 - carry)
    let s1 := s.set_status_flag Status.CARRY (result ≥ 0)
    let s2 := s1.set_status_flag Status.OVERFLOW
      ((s.a ^^^ value) &&& 0x80 ≠ 0 ∧ (s.a ^^^ i16_as_u16 result % 256) &&& 0x80 ≠ 0)
    let s3 := { s2 with a := i16_as_u16 result % 256 }
    s3.update_zero_negative_flags s3.a
  | .ASL =>
    let value := s.read_a_or_absolute addressing_mode
    let result := (value <<< 1) % 256
    let s := s.set_status_flag Status.CARRY (CPU.is_negative value)
    let s := s.write_a_or_absolute addressing_mode result
    s.update_zero_negative_flags result
  | .LSR =>
    let value := s.read_a_or_absolute addressing_mode
    let result := value >>> 1
    let s := s.set_status_flag Status.CARRY (CPU.is_bit0_set value)
    let s := s.write_a_or_absolute addressing_mode result
    s.update_zero_negative_flags result
  | .ROL =>
    let value := s.read_a_or_absolute addressing_mode
    let old_carry := if s.get_status_flag Status.CARRY then 1 else 0
    let s := s.set_status_flag Status.CARRY (CPU.is_negative value)
    let value := (value <<< 1) % 256 ||| old_carry
    let s := s.update_zero_negative_flags value
    s.write_a_or_absolute addressing_mode value
  | .ROR =>
    let value := s.read_a_or_absolute addressing_mode
    let old_carry := if s.get_status_flag Status.CARRY then 0x80 else 0
    let s := s.set_status_flag Status.CARRY (CPU.is_bit0_set value)
    let value := value >>> 1 ||| old_carry
    let s := s.update_zero_negative_flags value
    s.write_a_or_absolute addressing_mode value
  | .INC =>
    let value := s.bus.read s.absolute_address
    let value := wrapping_add8 value 1
    let s := { s with bus := s.bus.write s.absolute_address value }
    s.update_zero_negative_flags value
  | .DEC =>
    let value := s.bus.read s.absolute_address
    let value := wrapping_sub8 value 1
    let s := { s with bus := s.bus.write s.absolute_address value }
    s.update_zero_negative_flags value
  | .JMP => { s with pc := s.absolute_address }
  | .PHA => s.write_to_stack s.a
  | .PHP =>
    let status := s.status ||| Status.BREAK ||| Status.UNUSED
    s.write_to_stack status
  | .PLA =>
    let (value, s) := s.read_from_stack
    let s := { s with a := value }
    s.update_zero_negative_flags s.a
  | .PLP =>
    let (status, s) := s.read_from_stack
    let s := { s with status := Status.from_bits_truncate status }
    let s := s.set_status_flag Status.BREAK false
    s.set_status_flag Status.UNUSED true
  | .JSR =>
    let return_address := wrapping_sub16 s.pc 1
    let s := s.write_to_stack (return_address >>> 8)
    let s := s.write_to_stack (return_address % 256)
    { s with pc := s.absolute_address }
  | .RTS =>
    let (lo, s) := s.read_from_stack
    let (hi, s) := s.read_from_stack
    { s with pc := wrapping_add16 (CPU.get_bytes_to_address hi lo) 1 }
  | .RTI =>
    let (status, s) := s.read_from_stack
    let s := { s with status := Status.from_bits_truncate status }
    let s := s.set_status_flag Status.BREAK false
    let s := s.set_status_flag Status.UNUSED true
    let (lo, s) := s.read_from_stack
    let (hi, s) := s.read_from_stack
    { s with pc := CPU.get_bytes_to_address hi lo }
  | .BRK =>
    let return_address := wrapping_add16 s.pc 1
    let s := s.write_to_stack (return_address >>> 8)
    let s := s.write_to_stack (return_address % 256)
    let status := s.status ||| Status.BREAK ||| Status.UNUSED
    let s := s.write_to_stack status
    let s := s.set_status_flag Status.INTERRUPT true
    let lo := s.bus.read IRQ_VECTOR_ADDRESS_LO
    let hi := s.bus.read IRQ_VECTOR_ADDRESS_HI
    { s with pc := CPU.get_bytes_to_address hi lo }
  | .BIT =>
    let value := s.bus.read s.absolute_address
    let s := s.update_zero_negative_flags (s.a &&& value)
    let s := s.set_status_flag Status.NEGATIVE (CPU.is_negative value)
    s.set_status_flag Status.OVERFLOW (CPU.is_overflow value)

/-- cpu.rs: `CPU::clock`.  The opcode table `Opcode::decode` lives in the
`instructions` module, which is not among the provided sources; it is
passed as the parameter `decode`.  The Rust method mutates `self` and
returns `AppResult<()>`; here the mutated state is returned alongside the
possible error (on `InvalidOpcode` the PC increment has already
happened, exactly as in the source). -/
def CPU.clock (decode : Nat → Option Opcode) (s : CPU) : CPU × Option AppError :=
  if s.cycles = 0 then
    let byte := s.bus.read s.pc
    let s := s.increment_pc
    match decode byte with
    | some opcode =>
      let s := { s with cycles := opcode.cycles }
      let s := s.execute_addressing_mode opcode.addressing_mode
      let s := s.execute_instruction opcode.instruction opcode.addressing_mode
      ({ s with cycles := wrapping_sub8 s.cycles 1 }, none)
    | none => (s, some AppError.InvalidOpcode)
  else ({ s with cycles := wrapping_sub8 s.cycles 1 }, none)

/-- cpu.rs: `CPU::reset`. -/
def CPU.reset (s : CPU) : CPU :=
  let s := { s with a := 0, x := 0, y := 0, sp := STACK_POINTER_INITIAL_OFFSET }
  let lo := s.bus.read RESET_VECTOR_ADDRESS_LO
  let hi := s.bus.read RESET_VECTOR_ADDRESS_HI
  { s with pc := CPU.get_bytes_to_address hi lo,
           absolute_address := 0x0000, relative_address := 0x0000,
           status := Status.UNUSED, cycles := 8 }

/-- cpu.rs: `CPU::irq` (note: the guard returns early when the
INTERRUPT flag is NOT set, so the handler only runs when I is set). -/
def CPU.irq (s : CPU) : CPU :=
  if !(s.get_status_flag Status.INTERRUPT) then s
  else
    let pc := s.pc
    let s := s.write_to_stack (pc >>> 8)
    let s := s.write_to_stack (pc % 256)
    let status := s.status
    let s := s.write_to_stack status
    let s := s.set_status_flag Status.INTERRUPT true
    let lo := s.bus.read IRQ_VECTOR_ADDRESS_LO
    let hi := s.bus.read IRQ_VECTOR_ADDRESS_HI
    { s with pc := CPU.get_bytes_to_address hi lo, cycles := 7 }

/-- cpu.rs: `CPU::nmi`. -/
def CPU.nmi (s : CPU) : CPU :=
  let pc := s.pc
  let s := s.write_to_stack (pc >>> 8)
  let s := s.write_to_stack (pc % 256)
  let status := s.status ||| Status.UNUSED
  let s := s.write_to_stack status
  let s := s.set_status_flag Status.INTERRUPT true
  let lo := s.bus.read NMI_VECTOR_ADDRESS_LO
  let hi := s.bus.read NMI_VECTOR_ADDRESS_HI
  { s with pc := CPU.get_bytes_to_address hi lo, cycles := 7 }

/-! ## memory/memory.rs: `Memory`.

`RefCell<Vec<u8>>` becomes a `List Nat`.  `Vec` indexing panics when out
of bounds; those panics are modelled with `Option`. -/
structure Memory where
  cells : List Nat
deriving DecidableEq, Repr

/-- memory.rs: `Memory::new` — `vec![0; capacity]`. -/
def Memory.new (capacity : Nat) : Memory :=
  { cells := List.replicate capacity 0 }

/-- memory.rs: `Memory::read` — `cells[address]`, panics out of bounds. -/
def Memory.read (m : Memory) (address : Nat) : Option Nat :=
  m.cells.get? address

/-- memory.rs: `Memory::write` — `cells[address] = value`, panics out of
bounds. -/
def Memory.write (m : Memory) (address value : Nat) : Option Memory :=
  if address < m.cells.length then some { cells := m.cells.set address value }
  else none

/-- memory.rs: `Memory::write_chunk` — `cells[start..end].copy_from_slice`,
panics when `end` exceeds the vector length. -/
def Memory.write_chunk (m : Memory) (address : Nat) (value : List Nat) : Option Memory :=
  if address + value.length ≤ m.cells.length then
    some { cells := m.cells.take address ++ value ++ m.cells.drop (address + value.length) }
  else none

/-! ## cartridge/mapper.rs: `Mapper` (Mapper 000). -/

structure Mapper where
  prg_banks : Nat
  chr_banks : Nat
deriving DecidableEq, Repr

/-- mapper.rs: `Mapper::new`. -/
def Mapper.new (prg_banks chr_banks : Nat) : Mapper :=
  { prg_banks := prg_banks, chr_banks := chr_banks }

/-- mapper.rs: `Mapper::get_prg_address`. -/
def Mapper.get_prg_address (m : Mapper) (address : Nat) : Nat :=
  address &&& (if m.prg_banks > 1 then 0x7FFF else 0x3FFF)

/-- mapper.rs: `Mapper::get_chr_address`. -/
def Mapper.get_chr_address (_ : Mapper) (address : Nat) : Nat :=
  address

/-! ## cartridge/cartridge.rs: `Header` and `Cartridge`.

The two `bitflags!` wrappers (`MapperFirstFlags`, `MapperSecondFlags`)
cover all eight bits of their byte, so `from_bits_truncate` keeps the
whole byte; they are embedded as the raw flag bytes. -/

structure Header where
  prg_banks : Nat
  chr_banks : Nat
  first_mapper_flags : Nat
  second_mapper_flags : Nat
deriving DecidableEq, Repr

/-- cartridge.rs: the magic prefix `b"NES\x1A"`. -/
def NES_MAGIC : List Nat := [0x4E, 0x45, 0x53, 0x1A]

/-- cartridge.rs: `Header::new`.  Indexing `bytes[4..8]` is safe after the
16-byte length check, so `List.getD` (with an irrelevant default) models
it. -/
def Header.new (bytes : List Nat) : Except AppError Header :=
  if bytes.length < 16 then .error AppError.InvalidCartridgeHeaderSize
  else if bytes.take 4 ≠ NES_MAGIC then .error AppError.InvalidNesFile
  else .ok { prg_banks := bytes.getD 4 0,
             chr_banks := bytes.getD 5 0,
             first_mapper_flags := bytes.getD 6 0,
             second_mapper_flags := bytes.getD 7 0 }

/-- cartridge.rs: `MapperFirstFlags::LOWER_MAPPER_BITS_MASK` /
`MapperSecondFlags::UPPER_MAPPER_BITS_MASK` are both `0b1111_0000`. -/
def MAPPER_BITS_MASK : Nat := 0xF0

/-- cartridge.rs: `Header::get_mapper_id`. -/
def Header.get_mapper_id (h : Header) : Nat :=
  let lower := (h.first_mapper_flags &&& MAPPER_BITS_MASK) >>> 4
  let upper := h.second_mapper_flags &&& MAPPER_BITS_MASK
  upper ||| lower

structure Cartridge where
  header : Header
  prg_ram : Memory
  chr_rom : Memory
  mapper : Mapper
deriving DecidableEq, Repr

/-- Rust slice `&bytes[lo..hi]`; panics (`none`) when `lo > hi` or
`hi > bytes.len()`. -/
def sliceRange (bytes : List Nat) (lo hi : Nat) : Option (List Nat) :=
  if lo ≤ hi ∧ hi ≤ bytes.length then some ((bytes.drop lo).take (hi - lo))
  else none

/-- cartridge.rs: `Cartridge::new`.  The outer `Option` models the slice /
`copy_from_slice` panics (`none` = abort); the inner `Except` is the
`AppResult` the function returns. -/
def Cartridge.new (bytes : List Nat) : Option (Except AppError Cartridge) :=
  match Header.new bytes with
  | .error e => some (.error e)
  | .ok header =>
    if header.get_mapper_id ≠ 0 then some (.error AppError.InvalidCartridgeMapper)
    else
      let offset := 528
      let prg_memory_size := header.prg_banks * 16384
      let chr_memory_size := header.chr_banks * 8192
      let prg_ram := Memory.new prg_memory_size
      let chr_rom := Memory.new chr_memory_size
      match sliceRange bytes offset (offset + prg_memory_size) with
      | none => none
      | some prg_chunk =>
        match prg_ram.write_chunk 0 prg_chunk with
        | none => none
        | some prg_ram =>
          let offset := offset + prg_memory_size
          match sliceRange bytes offset (offset + chr_memory_size) with
          | none => none
          | some chr_chunk =>
            match chr_rom.write_chunk 0 chr_chunk with
            | none => none
            | some chr_rom =>
              let mapper := Mapper.new header.prg_banks header.chr_banks
              some (.ok { header := header, prg_ram := prg_ram,
                          chr_rom := chr_rom, mapper := mapper })

/-- cartridge.rs: `Cartridge::prg_read`. -/
def Cartridge.prg_read (c : Cartridge) (address : Nat) : Option Nat :=
  c.prg_ram.read (c.mapper.get_prg_address address)

/-- cartridge.rs: `Cartridge::prg_write`. -/
def Cartridge.prg_write (c : Cartridge) (address value : Nat) : Option Cartridge :=
  match c.prg_ram.write (c.mapper.get_prg_address address) value with
  | some m => some { c with prg_ram := m }
  | none => none

/-- cartridge.rs: `Cartridge::chr_read`. -/
def Cartridge.chr_read (c : Cartridge) (address : Nat) : Option Nat :=
  c.chr_rom.read (c.mapper.get_chr_address address)

/-! ## bus/ppu_bus.rs and ppu/ppu.rs. -/

/-- ppu_bus.rs: `CARTRIDGE_CHR_ADDRESS_LO`. -/
def CARTRIDGE_CHR_ADDRESS_LO : Nat := 0x0000

/-- ppu_bus.rs: `CARTRIDGE_CHR_ADDRESS_HI`. -/
def CARTRIDGE_CHR_ADDRESS_HI : Nat := 0x1FFF

structure PpuBus where
  cartridge : Cartridge
deriving DecidableEq, Repr

/-- ppu_bus.rs: `PpuBus::read`. -/
def PpuBus.read (b : PpuBus) (address : Nat) : Option Nat :=
  if CARTRIDGE_CHR_ADDRESS_LO ≤ address ∧ address ≤ CARTRIDGE_CHR_ADDRESS_HI then
    b.cartridge.chr_read address
  else some 0

/-- ppu_bus.rs: `PpuBus::write` — empty body. -/
def PpuBus.write (b : PpuBus) (_address _value : Nat) : PpuBus := b

structure PPU where
  bus : PpuBus
deriving DecidableEq, Repr

/-- ppu.rs: `PPU::read` — `return 0`. -/
def PPU.read (_ : PPU) (_address : Nat) : Nat := 0

/-- ppu.rs: `PPU::write` — empty body. -/
def PPU.write (p : PPU) (_address _value : Nat) : PPU := p

/-! ## bus/cpu_bus.rs: `CpuBus`. -/

/-- cpu_bus.rs: `RAM_ADDRESS_LO`. -/
def CpuBus.RAM_ADDRESS_LO : Nat := 0x0000

/-- cpu_bus.rs: `RAM_ADDRESS_HI`. -/
def CpuBus.RAM_ADDRESS_HI : Nat := 0x1FFF

/-- cpu_bus.rs: `PPU_REGISTERS_ADDRESS_LO`. -/
def CpuBus.PPU_REGISTERS_ADDRESS_LO : Nat := 0x2000

/-- cpu_bus.rs: `PPU_REGISTERS_ADDRESS_HI`. -/
def CpuBus.PPU_REGISTERS_ADDRESS_HI : Nat := 0x3FFF

/-- cpu_bus.rs: `CARTRIDGE_PRG_ADDRESS_LO`. -/
def CpuBus.CARTRIDGE_PRG_ADDRESS_LO : Nat := 0x8000

/-- cpu_bus.rs: `CARTRIDGE_PRG_ADDRESS_HI`. -/
def CpuBus.CARTRIDGE_PRG_ADDRESS_HI : Nat := 0xFFFF

structure CpuBus where
  ram : Memory
  ppu : PPU
  cartridge : Cartridge
deriving DecidableEq, Repr

/-- cpu_bus.rs: `CpuBus::get_mirrored_ram_address`. -/
def CpuBus.get_mirrored_ram_address (_ : CpuBus) (address : Nat) : Nat :=
  address &&& 0x07FF

/-- cpu_bus.rs: `CpuBus::get_mirrored_ppu_address`. -/
def CpuBus.get_mirrored_ppu_address (_ : CpuBus) (address : Nat) : Nat :=
  address &&& 0x0007

/-- cpu_bus.rs: `CpuBus::read` (`Option` propagates the RAM / cartridge
indexing panics). -/
def CpuBus.read (b : CpuBus) (address : Nat) : Option Nat :=
  if CpuBus.RAM_ADDRESS_LO ≤ address ∧ address ≤ CpuBus.RAM_ADDRESS_HI then
    b.ram.read (b.get_mirrored_ram_address address)
  else if CpuBus.PPU_REGISTERS_ADDRESS_LO ≤ address ∧ address ≤ CpuBus.PPU_REGISTERS_ADDRESS_HI then
    some (b.ppu.read (b.get_mirrored_ppu_address address))
  else if CpuBus.CARTRIDGE_PRG_ADDRESS_LO ≤ address ∧ address ≤ CpuBus.CARTRIDGE_PRG_ADDRESS_HI then
    b.cartridge.prg_read address
  else some 0

/-- cpu_bus.rs: `CpuBus::write`. -/
def CpuBus.write (b : CpuBus) (address value : Nat) : Option CpuBus :=
  if CpuBus.RAM_ADDRESS_LO ≤ address ∧ address ≤ CpuBus.RAM_ADDRESS_HI then
    match b.ram.write (b.get_mirrored_ram_address address) value with
    | some m => some { b with ram := m }
    | none => none
  else if CpuBus.PPU_REGISTERS_ADDRESS_LO ≤ address ∧ address ≤ CpuBus.PPU_REGISTERS_ADDRESS_HI then
    some { b with ppu := b.ppu.write (b.get_mirrored_ppu_address address) value }
  else if CpuBus.CARTRIDGE_PRG_ADDRESS_LO ≤ address ∧ address ≤ CpuBus.CARTRIDGE_PRG_ADDRESS_HI then
    match b.cartridge.prg_write address value with
    | some c => some { b with cartridge := c }
    | none => none
  else some b

/-! ## Concrete instantiations used by the claims. -/

/-- Modelled from the spec: the `instructions` module (and with it the
opcode decode table `Opcode::decode`) is not among the provided sources.
Spec scenario 4 fixes byte `6C` as JMP with Indirect addressing; only
that entry is modelled here (the base cycle count in the decode entry
does not affect any claim about PC). -/
def Opcode.decode_modelled : Nat → Option Opcode :=
  fun byte => if byte = 0x6C then some ⟨.JMP, .Indirect, 5⟩ else none

/-- The all-zero 64 KiB RAM, `RAM::<65536>::new()` from main.rs. -/
def zeroRAM : RAM := ⟨65536, fun _ => 0⟩

/-- A `Bus` over the all-zero 64 KiB RAM. -/
def zeroBus : Bus := ⟨zeroRAM⟩

/-- Memory for spec scenario 4: bytes `6C FF 02` at `$0000`,
`$02FF = $00`, `$0300 = $40`, `$0200 = $80`, all other cells zero. -/
def scenario4RAM : RAM :=
  ⟨65536, fun a =>
    if a = 0 then 0x6C else if a = 1 then 0xFF else if a = 2 then 0x02
    else if a = 0x02FF then 0x00 else if a = 0x0300 then 0x40
    else if a = 0x0200 then 0x80 else 0⟩

/-- CPU constructed over the scenario-4 memory (the reset vector there is
zero, so PC starts at `$0000`, right at the `6C FF 02` bytes, with the
cycle counter at zero so the first `clock` decodes immediately). -/
def scenario4CPU : CPU := CPU.new ⟨scenario4RAM⟩

/-- A CPU over the all-zero RAM whose status byte is `U` only
(Interrupt flag clear), PC at `$0400`. -/
def irqClearCPU : CPU :=
  { a := 0, x := 0, y := 0, sp := 0xFD, pc := 0x0400, status := Status.UNUSED,
    bus := zeroBus, cycles := 0, absolute_address := 0, relative_address := 0 }

/-- Same CPU with status `U | I` (Interrupt flag set). -/
def irqSetCPU : CPU :=
  { irqClearCPU with status := Status.UNUSED ||| Status.INTERRUPT }

/-- The bus of spec scenario 3: bytes `34 12` written to `$FFFC/$FFFD`
through the bus. -/
def scenario3Bus : Bus :=
  Bus.write (Bus.write zeroBus RESET_VECTOR_ADDRESS_LO 0x34) RESET_VECTOR_ADDRESS_HI 0x12

/-- A cartridge with no banks (placeholder device for bus states whose
cartridge contents are irrelevant to the claim at hand). -/
def emptyCart : Cartridge := ⟨⟨0, 0, 0, 0⟩, ⟨[]⟩, ⟨[]⟩, ⟨0, 0⟩⟩

/-- A `CpuBus` over a freshly zeroed 2 KiB RAM. -/
def smallCpuBus : CpuBus := ⟨Memory.new 2048, ⟨⟨emptyCart⟩⟩, emptyCart⟩

/-! ## C1: indirect JMP and the page-wrap bug. -/

/-- C1 (counterexample): with `$02FF = $00`, `$0300 = $40`, `$0200 = $80`
in memory, executing `6C FF 02` does NOT set PC to `$8000` — the claimed
page-wrap behaviour is absent from `execute_addressing_mode`. -/
theorem c1_counterexample :
    (CPU.clock Opcode.decode_modelled scenario4CPU).1.pc ≠ 0x8000 := by decide

/-- C1 (amended): the Indirect mode always fetches the effective
address's high byte from `pointer + 1` with 16-bit wraparound — it
crosses into the next page rather than wrapping within the pointer's
page — and concretely `6C FF 02` over the scenario-4 memory sets PC to
`$4000` (high byte from `$0300`). -/
theorem c1_indirect_reads_next_page :
    (∀ s : CPU,
      (s.execute_addressing_mode AddressingMode.Indirect).absolute_address =
        CPU.get_bytes_to_address
          (s.bus.read (wrapping_add16
            (CPU.get_bytes_to_address (s.bus.read (wrapping_add16 s.pc 1)) (s.bus.read s.pc)) 1))
          (s.bus.read
            (CPU.get_bytes_to_address (s.bus.read (wrapping_add16 s.pc 1)) (s.bus.read s.pc)))) ∧
    (CPU.clock Opcode.decode_modelled scenario4CPU).1.pc = 0x4000 :=
  ⟨fun _ => rfl, by decide⟩

/-! ## C2: the IRQ guard. -/

/-- C2 (code bug): `CPU::irq` returns early when the Interrupt flag is
CLEAR and services the interrupt when it is SET — the inverse of the
documented 6502 rule stated by the claim.  With I clear the state is
untouched; with I set the handler pushes PC high, PC low and the status
byte, loads PC from the (zero) IRQ vector and stalls 7 cycles. -/
theorem c2_irq_guard_inverted :
    CPU.irq irqClearCPU = irqClearCPU ∧
    (CPU.irq irqSetCPU).sp = 0xFA ∧
    (CPU.irq irqSetCPU).cycles = 7 ∧
    (CPU.irq irqSetCPU).pc = 0 ∧
    (CPU.irq irqSetCPU).bus.ram.memory 0x01FD = 0x04 ∧
    (CPU.irq irqSetCPU).bus.ram.memory 0x01FC = 0x00 ∧
    (CPU.irq irqSetCPU).bus.ram.memory 0x01FB = (Status.UNUSED ||| Status.INTERRUPT) :=
  ⟨rfl, by decide, by decide, by decide, by decide, by decide, by decide⟩

/-! ## C6: power-on PC seeding through the bus. -/

/-- C6 (code bug): writing `34 12` to `$FFFC/$FFFD` through the bus does
store the bytes in RAM, but `Bus::read` only serves addresses up to
`$077F`, so both vector reads in `CPU::new` return 0 and the new CPU's
PC is `$0000`, not `$1234`.  The remaining register initialisation
(SP = `$FD`, A = X = Y = 0, status = U|I) behaves as claimed. -/
theorem c6_reset_vector_not_seeded :
    scenario3Bus.ram.memory 0xFFFC = 0x34 ∧
    scenario3Bus.ram.memory 0xFFFD = 0x12 ∧
    Bus.read scenario3Bus RESET_VECTOR_ADDRESS_LO = 0 ∧
    Bus.read scenario3Bus RESET_VECTOR_ADDRESS_HI = 0 ∧
    (CPU.new scenario3Bus).pc = 0 ∧
    (CPU.new scenario3Bus).pc ≠ 0x1234 ∧
    (CPU.new scenario3Bus).sp = 0xFD ∧
    (CPU.new scenario3Bus).a = 0 ∧
    (CPU.new scenario3Bus).x = 0 ∧
    (CPU.new scenario3Bus).y = 0 ∧
    (CPU.new scenario3Bus).status = (Status.UNUSED ||| Status.INTERRUPT) := by
  decide

/-! ## C4: unmapped address ranges. -/

/-- C4 (counterexample): a write to the unmapped address `$4000` through
`Bus` (bus.rs) does NOT leave the devices unchanged — `Bus::write`
forwards every address to the RAM unconditionally, so RAM cell `$4000`
changes. -/
theorem c4_counterexample :
    (Bus.write zeroBus 0x4000 0x05).ram.memory 0x4000 ≠ zeroBus.ram.memory 0x4000 := by
  decide

/-- C4 (amended): for addresses in `$4000–$7FFF` (outside RAM, PPU and
cartridge PRG ranges), `CpuBus` reads return 0 and `CpuBus` writes leave
the state unchanged; `Bus` (bus.rs) reads also return 0, but its writes
always reach the RAM — with the 64 KiB RAM the written cell is not
observable through any subsequent `Bus::read`, whose window stops at
`$077F`. -/
theorem c4_unmapped_addresses (b : CpuBus) (b2 : Bus) (address value : Nat)
    (h1 : 0x4000 ≤ address) (h2 : address ≤ 0x7FFF) :
    (CpuBus.read b address = some 0 ∧ CpuBus.write b address value = some b) ∧
    (Bus.read b2 address = 0 ∧
      (b2.ram.size = 65536 →
        ∀ address2, Bus.read (Bus.write b2 address value) address2 = Bus.read b2 address2)) := by
  have hr : ¬(CpuBus.RAM_ADDRESS_LO ≤ address ∧ address ≤ CpuBus.RAM_ADDRESS_HI) := by
    simp only [CpuBus.RAM_ADDRESS_LO, CpuBus.RAM_ADDRESS_HI]
    omega
  have hp : ¬(CpuBus.PPU_REGISTERS_ADDRESS_LO ≤ address ∧
      address ≤ CpuBus.PPU_REGISTERS_ADDRESS_HI) := by
    simp only [CpuBus.PPU_REGISTERS_ADDRESS_LO, CpuBus.PPU_REGISTERS_ADDRESS_HI]
    omega
  have hc : ¬(CpuBus.CARTRIDGE_PRG_ADDRESS_LO ≤ address ∧
      address ≤ CpuBus.CARTRIDGE_PRG_ADDRESS_HI) := by
    simp only [CpuBus.CARTRIDGE_PRG_ADDRESS_LO, CpuBus.CARTRIDGE_PRG_ADDRESS_HI]
    omega
  have hb : ¬(Bus.RAM_ADDRESS_LO ≤ address ∧ address ≤ Bus.RAM_ADDRESS_HI) := by
    simp only [Bus.RAM_ADDRESS_LO, Bus.RAM_ADDRESS_HI]
    omega
  refine ⟨⟨?_, ?_⟩, ?_, ?_⟩
  · simp only [CpuBus.read, if_neg hr, if_neg hp, if_neg hc]
  · simp only [CpuBus.write, if_neg hr, if_neg hp, if_neg hc]
  · simp only [Bus.read, if_neg hb]
  · intro hsize address2
    simp only [Bus.read, Bus.write, RAM.write, RAM.read, RAM.get_index, hsize]
    by_cases hlow : Bus.RAM_ADDRESS_LO ≤ address2 ∧ address2 ≤ Bus.RAM_ADDRESS_HI
    · rw [if_pos hlow, if_pos hlow, if_neg]
      have := hlow.2
      simp only [Bus.RAM_ADDRESS_HI] at this
      omega
    · rw [if_neg hlow, if_neg hlow]

/-- C4 (witness): the amended statement instantiated at address `$4567`
on a concrete `CpuBus` and the all-zero `Bus`. -/
theorem c4_witness :
    (CpuBus.read smallCpuBus 0x4567 = some 0 ∧
     CpuBus.write smallCpuBus 0x4567 9 = some smallCpuBus) ∧
    (Bus.read zeroBus 0x4567 = 0 ∧
      (zeroBus.ram.size = 65536 →
        ∀ address2, Bus.read (Bus.write zeroBus 0x4567 9) address2 = Bus.read zeroBus address2)) :=
  c4_unmapped_addresses smallCpuBus zeroBus 0x4567 9 (by decide) (by decide)

/-! ## C5: RAM mirroring on the CPU bus. -/

/-- C5 (confirmed): for every address in `$0000–$1FFF`, a `CpuBus` read
equals the read of `address AND $07FF`, and — with the 2 KiB RAM the
claim describes — writing then reading the mirrored address observes the
written byte. -/
theorem c5_ram_mirroring (b : CpuBus) (address value : Nat) (h : address ≤ 0x1FFF) :
    CpuBus.read b address = CpuBus.read b (address &&& 0x07FF) ∧
    (0x0800 ≤ b.ram.cells.length →
      ∃ b2, CpuBus.write b address value = some b2 ∧
        CpuBus.read b2 (address &&& 0x07FF) = some value) := by
  have e2 : (0x07FF : Nat) = 2 ^ 11 - 1 := by norm_num
  have hm : address &&& 0x07FF = address % 2048 := by
    rw [e2, Nat.and_pow_two_sub_one_eq_mod]
  have hmm : address % 2048 &&& 0x07FF = address % 2048 := by
    rw [e2, Nat.and_pow_two_sub_one_eq_mod]
    omega
  have ha : CpuBus.RAM_ADDRESS_LO ≤ address ∧ address ≤ CpuBus.RAM_ADDRESS_HI := by
    simp only [CpuBus.RAM_ADDRESS_LO, CpuBus.RAM_ADDRESS_HI]
    omega
  have ha2 : CpuBus.RAM_ADDRESS_LO ≤ address % 2048 ∧
      address % 2048 ≤ CpuBus.RAM_ADDRESS_HI := by
    simp only [CpuBus.RAM_ADDRESS_LO, CpuBus.RAM_ADDRESS_HI]
    omega
  constructor
  · simp only [CpuBus.read, CpuBus.get_mirrored_ram_address, hm, if_pos ha, if_pos ha2, hmm]
  · intro hlen
    have hlt : address % 2048 < b.ram.cells.length := by omega
    refine ⟨{ b with ram := ⟨b.ram.cells.set (address % 2048) value⟩ }, ?_, ?_⟩
    · simp only [CpuBus.write, if_pos ha, CpuBus.get_mirrored_ram_address, hm, Memory.write,
        if_pos hlt]
    · simp only [CpuBus.read, if_pos ha2, CpuBus.get_mirrored_ram_address, hmm, Memory.read,
        hm, List.get?_eq_getElem?]
      simp [hlt]

/-- C5 (witness): mirroring at address `$1ABC` over a fresh 2 KiB RAM. -/
theorem c5_witness :
    CpuBus.read smallCpuBus 0x1ABC = CpuBus.read smallCpuBus (0x1ABC &&& 0x07FF) ∧
    (0x0800 ≤ smallCpuBus.ram.cells.length →
      ∃ b2, CpuBus.write smallCpuBus 0x1ABC 7 = some b2 ∧
        CpuBus.read b2 (0x1ABC &&& 0x07FF) = some 7) :=
  c5_ram_mirroring smallCpuBus 0x1ABC 7 (by decide)

/-! ## Cartridge construction lemmas (shared by C3 and C7). -/

/-- The header that `Header::new` extracts from a well-formed image. -/
def parsedHeader (bytes : List Nat) : Header :=
  ⟨bytes.getD 4 0, bytes.getD 5 0, bytes.getD 6 0, bytes.getD 7 0⟩

/-- The cartridge that a successful `Cartridge::new` produces. -/
def parsedCartridge (bytes : List Nat) : Cartridge :=
  { header := parsedHeader bytes,
    prg_ram := ⟨(bytes.drop 528).take (bytes.getD 4 0 * 16384)⟩,
    chr_rom := ⟨(bytes.drop (528 + bytes.getD 4 0 * 16384)).take (bytes.getD 5 0 * 8192)⟩,
    mapper := ⟨bytes.getD 4 0, bytes.getD 5 0⟩ }

theorem Header.new_short {bytes : List Nat} (h : bytes.length < 16) :
    Header.new bytes = .error AppError.InvalidCartridgeHeaderSize := by
  simp [Header.new, h]

theorem Header.new_bad_magic {bytes : List Nat} (h16 : ¬ bytes.length < 16)
    (hm : bytes.take 4 ≠ NES_MAGIC) :
    Header.new bytes = .error AppError.InvalidNesFile := by
  simp [Header.new, h16, hm]

theorem Header.new_parsed {bytes : List Nat} (h16 : ¬ bytes.length < 16)
    (hm : bytes.take 4 = NES_MAGIC) :
    Header.new bytes = .ok (parsedHeader bytes) := by
  simp [Header.new, h16, hm, parsedHeader]

theorem sliceRange_eq_some {bytes : List Nat} {lo hi : Nat} (h1 : lo ≤ hi)
    (h2 : hi ≤ bytes.length) :
    sliceRange bytes lo hi = some ((bytes.drop lo).take (hi - lo)) := by
  simp [sliceRange, h1, h2]

theorem sliceRange_eq_none {bytes : List Nat} {lo hi : Nat} (h : bytes.length < hi) :
    sliceRange bytes lo hi = none := by
  simp only [sliceRange, ite_eq_right_iff]
  intro hc
  omega

theorem write_chunk_full {cap : Nat} {data : List Nat} (h : data.length = cap) :
    (Memory.new cap).write_chunk 0 data = some ⟨data⟩ := by
  simp only [Memory.write_chunk, Memory.new, List.length_replicate, h, Nat.zero_add, le_refl,
    if_pos, List.take_zero, List.nil_append, List.drop_replicate, Nat.sub_self,
    List.replicate_zero, List.append_nil]

theorem cartridge_new_header_err {bytes : List Nat} {e : AppError}
    (h : Header.new bytes = .error e) :
    Cartridge.new bytes = some (.error e) := by
  simp only [Cartridge.new, h]

theorem cartridge_new_bad_mapper {bytes : List Nat} (h16 : ¬ bytes.length < 16)
    (hm : bytes.take 4 = NES_MAGIC) (hmap : (parsedHeader bytes).get_mapper_id ≠ 0) :
    Cartridge.new bytes = some (.error AppError.InvalidCartridgeMapper) := by
  simp only [Cartridge.new, Header.new_parsed h16 hm, if_pos hmap]

theorem cartridge_new_success {bytes : List Nat} (h16 : ¬ bytes.length < 16)
    (hm : bytes.take 4 = NES_MAGIC) (hmap : (parsedHeader bytes).get_mapper_id = 0)
    (hfit : 528 + bytes.getD 4 0 * 16384 + bytes.getD 5 0 * 8192 ≤ bytes.length) :
    Cartridge.new bytes = some (.ok (parsedCartridge bytes)) := by
  have hs1 : sliceRange bytes 528 (528 + bytes.getD 4 0 * 16384) =
      some ((bytes.drop 528).take (bytes.getD 4 0 * 16384)) := by
    rw [sliceRange_eq_some (by omega) (by omega), Nat.add_sub_cancel_left]
  have hc1 : ((bytes.drop 528).take (bytes.getD 4 0 * 16384)).length =
      bytes.getD 4 0 * 16384 := by
    simp only [List.length_take, List.length_drop]
    omega
  have hs2 : sliceRange bytes (528 + bytes.getD 4 0 * 16384)
      (528 + bytes.getD 4 0 * 16384 + bytes.getD 5 0 * 8192) =
      some ((bytes.drop (528 + bytes.getD 4 0 * 16384)).take (bytes.getD 5 0 * 8192)) := by
    rw [sliceRange_eq_some (by omega) (by omega), Nat.add_sub_cancel_left]
  have hc2 : ((bytes.drop (528 + bytes.getD 4 0 * 16384)).take
      (bytes.getD 5 0 * 8192)).length = bytes.getD 5 0 * 8192 := by
    simp only [List.length_take, List.length_drop]
    omega
  rw [parsedHeader] at hmap
  simp only [Cartridge.new, Header.new_parsed h16 hm, parsedHeader,
    hs1, hs2, write_chunk_full hc1, write_chunk_full hc2, Mapper.new, parsedCartridge]
  rw [if_neg (not_not_intro hmap)]

theorem cartridge_new_aborts {bytes : List Nat} (h16 : ¬ bytes.length < 16)
    (hm : bytes.take 4 = NES_MAGIC) (hmap : (parsedHeader bytes).get_mapper_id = 0)
    (hshort : bytes.length < 528 + bytes.getD 4 0 * 16384 + bytes.getD 5 0 * 8192) :
    Cartridge.new bytes = none := by
  by_cases h1 : 528 + bytes.getD 4 0 * 16384 ≤ bytes.length
  · have hs1 : sliceRange bytes 528 (528 + bytes.getD 4 0 * 16384) =
        some ((bytes.drop 528).take (bytes.getD 4 0 * 16384)) := by
      rw [sliceRange_eq_some (by omega) (by omega), Nat.add_sub_cancel_left]
    have hc1 : ((bytes.drop 528).take (bytes.getD 4 0 * 16384)).length =
        bytes.getD 4 0 * 16384 := by
      simp only [List.length_take, List.length_drop]
      omega
    have hs2 : sliceRange bytes (528 + bytes.getD 4 0 * 16384)
        (528 + bytes.getD 4 0 * 16384 + bytes.getD 5 0 * 8192) = none :=
      sliceRange_eq_none (by omega)
    rw [parsedHeader] at hmap
    simp only [Cartridge.new, Header.new_parsed h16 hm, parsedHeader,
      hs1, hs2, write_chunk_full hc1]
    rw [if_neg (not_not_intro hmap)]
  · have hs1 : sliceRange bytes 528 (528 + bytes.getD 4 0 * 16384) = none :=
      sliceRange_eq_none (by omega)
    rw [parsedHeader] at hmap
    simp only [Cartridge.new, Header.new_parsed h16 hm, parsedHeader, hs1]
    rw [if_neg (not_not_intro hmap)]

/-- Shared content lemma for C3: on every accepted image the PRG region
is the slice starting at byte 528, the CHR region follows it, and for a
one-bank image `prg_read` of `$8000 + k` is input byte `528 + k`. -/
theorem cartridge_prg_extraction {bytes : List Nat} (h16 : ¬ bytes.length < 16)
    (hm : bytes.take 4 = NES_MAGIC) (hmap : (parsedHeader bytes).get_mapper_id = 0)
    (hfit : 528 + bytes.getD 4 0 * 16384 + bytes.getD 5 0 * 8192 ≤ bytes.length) :
    Cartridge.new bytes = some (.ok (parsedCartridge bytes)) ∧
    (parsedCartridge bytes).prg_ram.cells =
      (bytes.drop 528).take (bytes.getD 4 0 * 16384) ∧
    (parsedCartridge bytes).chr_rom.cells =
      (bytes.drop (528 + bytes.getD 4 0 * 16384)).take (bytes.getD 5 0 * 8192) ∧
    (bytes.getD 4 0 = 1 →
      ∀ k, k < 16384 →
        (parsedCartridge bytes).prg_read (0x8000 + k) = bytes.get? (528 + k)) := by
  refine ⟨cartridge_new_success h16 hm hmap hfit, rfl, rfl, ?_⟩
  intro hone k hk
  show Memory.read _ _ = _
  rw [Memory.read, parsedCartridge]
  simp only [hone, Nat.one_mul, List.get?_eq_getElem?]
  have haddr : Mapper.get_prg_address ⟨1, bytes.getD 5 0⟩ (0x8000 + k) = k := by
    simp only [Mapper.get_prg_address, gt_iff_lt, Nat.lt_irrefl, if_false]
    rw [show (0x3FFF : Nat) = 2 ^ 14 - 1 by norm_num, Nat.and_pow_two_sub_one_eq_mod]
    omega
  rw [haddr, List.getElem?_take_of_lt hk, List.getElem?_drop]

/-! ## C7: cartridge construction error taxonomy. -/

/-- C7 (counterexample): a well-formed 16-byte header with mapper 0 does
NOT yield a cartridge — construction aborts (out-of-bounds slice panic at
offset 528), refuting the claim that every input passing the three header
checks returns a cartridge. -/
theorem c7_counterexample :
    Cartridge.new [0x4E, 0x45, 0x53, 0x1A, 0, 0, 0, 0, 0, 0, 0, 0, 0, 0, 0, 0] = none := by
  rfl

/-- C7 (amended): `Cartridge::new` fails with `InvalidCartridgeHeaderSize`
exactly on inputs shorter than 16 bytes, with `InvalidNesFile` exactly
when the input has 16 bytes but the magic `4E 45 53 1A` is absent, and
with `InvalidCartridgeMapper` exactly when the header is well-formed but
the assembled mapper ID is nonzero; in the remaining cases it returns a
cartridge when the input also holds 528 + prg·16384 + chr·8192 bytes, and
aborts (slice panic, modelled as `none`) otherwise. -/
theorem c7_cartridge_error_taxonomy (bytes : List Nat) :
    (Cartridge.new bytes = some (.error AppError.InvalidCartridgeHeaderSize) ↔
      bytes.length < 16) ∧
    (Cartridge.new bytes = some (.error AppError.InvalidNesFile) ↔
      16 ≤ bytes.length ∧ bytes.take 4 ≠ NES_MAGIC) ∧
    (Cartridge.new bytes = some (.error AppError.InvalidCartridgeMapper) ↔
      16 ≤ bytes.length ∧ bytes.take 4 = NES_MAGIC ∧
      (parsedHeader bytes).get_mapper_id ≠ 0) ∧
    ((∃ c, Cartridge.new bytes = some (.ok c)) ↔
      16 ≤ bytes.length ∧ bytes.take 4 = NES_MAGIC ∧
      (parsedHeader bytes).get_mapper_id = 0 ∧
      528 + bytes.getD 4 0 * 16384 + bytes.getD 5 0 * 8192 ≤ bytes.length) ∧
    (Cartridge.new bytes = none ↔
      16 ≤ bytes.length ∧ bytes.take 4 = NES_MAGIC ∧
      (parsedHeader bytes).get_mapper_id = 0 ∧
      bytes.length < 528 + bytes.getD 4 0 * 16384 + bytes.getD 5 0 * 8192) := by
  by_cases h16 : bytes.length < 16
  · rw [cartridge_new_header_err (Header.new_short h16)]
    refine ⟨by simp [h16], by simp; omega, by simp; omega, ?_, by simp; omega⟩
    constructor
    · rintro ⟨c, hc⟩
      simp at hc
    · rintro ⟨h, -⟩
      omega
  · by_cases hm : bytes.take 4 = NES_MAGIC
    · by_cases hmap : (parsedHeader bytes).get_mapper_id = 0
      · by_cases hfit : 528 + bytes.getD 4 0 * 16384 + bytes.getD 5 0 * 8192 ≤ bytes.length
        · rw [cartridge_new_success h16 hm hmap hfit]
          refine ⟨?_, ?_, ?_, ?_, ?_⟩
          · exact ⟨fun h => absurd h (by simp), fun h => by omega⟩
          · exact ⟨fun h => absurd h (by simp), fun h => absurd hm h.2⟩
          · exact ⟨fun h => absurd h (by simp), fun h => absurd hmap h.2.2⟩
          · exact ⟨fun _ => ⟨by omega, hm, hmap, hfit⟩, fun _ => ⟨parsedCartridge bytes, rfl⟩⟩
          · exact ⟨fun h => absurd h (by simp), fun h => by omega⟩
        · rw [cartridge_new_aborts h16 hm hmap (by omega)]
          refine ⟨?_, ?_, ?_, ?_, ?_⟩
          · exact ⟨fun h => absurd h (by simp), fun h => by omega⟩
          · exact ⟨fun h => absurd h (by simp), fun h => absurd hm h.2⟩
          · exact ⟨fun h => absurd h (by simp), fun h => absurd hmap h.2.2⟩
          · refine ⟨fun h => ?_, fun h => by omega⟩
            obtain ⟨c, hc⟩ := h
            exact absurd hc (by simp)
          · exact ⟨fun _ => ⟨by omega, hm, hmap, by omega⟩, fun _ => rfl⟩
      · rw [cartridge_new_bad_mapper h16 hm hmap]
        refine ⟨by simp; omega, by simp [hm], by simp [hm, hmap]; omega, ?_, by simp; omega⟩
        constructor
        · rintro ⟨c, hc⟩
          simp at hc
        · rintro ⟨-, -, h, -⟩
          exact absurd h hmap
    · rw [cartridge_new_header_err (Header.new_bad_magic h16 hm)]
      refine ⟨by simp; omega, by simp [hm]; omega, by simp [hm], ?_, by simp [hm]⟩
      constructor
      · rintro ⟨c, hc⟩
        simp at hc
      · rintro ⟨-, h, -⟩
        exact absurd h hm

/-! ## C3: where the PRG image is loaded from. -/

/-- The iNES image used to test the PRG load offset: a valid one-bank
header, zeroes up to byte 527, the marker byte `$AB` at offset 528, and
zeroes for the rest of the 16384-byte PRG image (total 16912 bytes). -/
def markedImage : List Nat :=
  [0x4E, 0x45, 0x53, 0x1A, 1, 0, 0, 0, 0, 0, 0, 0, 0, 0, 0, 0] ++
  (List.replicate 512 0 ++ 0xAB :: List.replicate 16383 0)

theorem markedImage_length : markedImage.length = 16912 := by
  rw [markedImage]
  simp only [List.length_append, List.length_replicate, List.length_cons, List.length_nil]

theorem markedImage_take4 : markedImage.take 4 = NES_MAGIC := by
  rw [markedImage, List.take_append_of_le_length (by simp)]
  rfl

theorem markedImage_getD (i d : Nat) (hi : i < 16) :
    markedImage.getD i d = [0x4E, 0x45, 0x53, 0x1A, 1, 0, 0, 0, 0, 0, 0, 0,
      0, 0, 0, 0].getD i d := by
  rw [markedImage, List.getD_eq_getElem?_getD, List.getElem?_append_left (by simp; omega),
    List.getD_eq_getElem?_getD]

theorem markedImage_get?_528 : markedImage.get? 528 = some 0xAB := by
  rw [markedImage, List.get?_eq_getElem?,
    List.getElem?_append_right (by simp)]
  rw [show ([0x4E, 0x45, 0x53, 0x1A, 1, 0, 0, 0, 0, 0, 0, 0, 0, 0, 0, 0] :
    List Nat).length = 16 by rfl]
  rw [show (528 - 16 : Nat) = 512 by norm_num]
  rw [List.getElem?_append_right (by simp), List.length_replicate]
  rw [show (512 - 512 : Nat) = 0 by norm_num]
  exact List.getElem?_cons_zero

theorem markedImage_get?_16 : markedImage.get? 16 = some 0 := by
  rw [markedImage, List.get?_eq_getElem?,
    List.getElem?_append_right (by simp)]
  rw [show ([0x4E, 0x45, 0x53, 0x1A, 1, 0, 0, 0, 0, 0, 0, 0, 0, 0, 0, 0] :
    List Nat).length = 16 by rfl]
  rw [show (16 - 16 : Nat) = 0 by norm_num]
  rw [List.getElem?_append_left (by simp)]
  rw [List.getElem?_replicate_of_lt (by omega)]

/-- C3 (counterexample): in the accepted one-bank image `markedImage`,
`prg_read($8000)` returns input byte 528 (the marker `$AB`), not input
byte 16 (which is 0) — the PRG image is not taken from offset 16. -/
theorem c3_counterexample :
    ∃ c, Cartridge.new markedImage = some (.ok c) ∧
      c.prg_read 0x8000 = markedImage.get? 528 ∧
      c.prg_read 0x8000 ≠ markedImage.get? 16 := by
  have h16 : ¬ markedImage.length < 16 := by rw [markedImage_length]; omega
  have hmap : (parsedHeader markedImage).get_mapper_id = 0 := by
    rw [parsedHeader, markedImage_getD 4 0 (by omega), markedImage_getD 5 0 (by omega),
      markedImage_getD 6 0 (by omega), markedImage_getD 7 0 (by omega)]
    rfl
  have hfit : 528 + markedImage.getD 4 0 * 16384 + markedImage.getD 5 0 * 8192 ≤
      markedImage.length := by
    rw [markedImage_length, markedImage_getD 4 0 (by omega), markedImage_getD 5 0 (by omega)]
    norm_num
  obtain ⟨hnew, -, -, hread⟩ :=
    cartridge_prg_extraction h16 markedImage_take4 hmap hfit
  have h0 := hread (by rw [markedImage_getD 4 0 (by omega)]; rfl) 0 (by omega)
  rw [Nat.add_zero] at h0
  refine ⟨parsedCartridge markedImage, hnew, h0, ?_⟩
  rw [h0, markedImage_get?_528, markedImage_get?_16]
  simp

/-- C3 (amended): for every image accepted by cartridge construction, the
PRG data is taken from the input starting at byte offset 528 (not 16) for
prg_banks × 16384 bytes, the CHR data follows it immediately, and for a
one-bank cartridge `prg_read` of `$8000 + k` returns input byte
`528 + k`. -/
theorem c3_prg_loaded_from_528 (bytes : List Nat) (h16 : 16 ≤ bytes.length)
    (hm : bytes.take 4 = NES_MAGIC) (hmap : (parsedHeader bytes).get_mapper_id = 0)
    (hfit : 528 + bytes.getD 4 0 * 16384 + bytes.getD 5 0 * 8192 ≤ bytes.length) :
    ∃ c, Cartridge.new bytes = some (.ok c) ∧
      c.prg_ram.cells = (bytes.drop 528).take (bytes.getD 4 0 * 16384) ∧
      c.chr_rom.cells =
        (bytes.drop (528 + bytes.getD 4 0 * 16384)).take (bytes.getD 5 0 * 8192) ∧
      (bytes.getD 4 0 = 1 →
        ∀ k, k < 16384 → c.prg_read (0x8000 + k) = bytes.get? (528 + k)) := by
  obtain ⟨hnew, hprg, hchr, hread⟩ :=
    cartridge_prg_extraction (by omega) hm hmap hfit
  exact ⟨parsedCartridge bytes, hnew, hprg, hchr, hread⟩

/-- C3 (witness): the amended statement instantiated at `markedImage`. -/
theorem c3_witness :
    ∃ c, Cartridge.new markedImage = some (.ok c) ∧
      c.prg_ram.cells = (markedImage.drop 528).take (markedImage.getD 4 0 * 16384) ∧
      c.chr_rom.cells = (markedImage.drop (528 + markedImage.getD 4 0 * 16384)).take
        (markedImage.getD 5 0 * 8192) ∧
      (markedImage.getD 4 0 = 1 →
        ∀ k, k < 16384 → c.prg_read (0x8000 + k) = markedImage.get? (528 + k)) :=
  c3_prg_loaded_from_528 markedImage (by rw [markedImage_length]; omega)
    markedImage_take4
    (by rw [parsedHeader, markedImage_getD 4 0 (by omega), markedImage_getD 5 0 (by omega),
          markedImage_getD 6 0 (by omega), markedImage_getD 7 0 (by omega)]
        rfl)
    (by rw [markedImage_length, markedImage_getD 4 0 (by omega),
          markedImage_getD 5 0 (by omega)]
        norm_num)

/-! ## Status-flag toolkit (shared by C8, C9, C10). -/

theorem or_and_self (s f : Nat) : (s ||| f) &&& f = f := by
  apply Nat.eq_of_testBit_eq
  intro i
  cases h : f.testBit i <;> simp [h]

theorem CPU.a_set_status_flag (s : CPU) (f : Nat) (b : Bool) :
    (s.set_status_flag f b).a = s.a := by
  cases b <;> rfl

theorem CPU.bus_set_status_flag (s : CPU) (f : Nat) (b : Bool) :
    (s.set_status_flag f b).bus = s.bus := by
  cases b <;> rfl

theorem CPU.absolute_address_set_status_flag (s : CPU) (f : Nat) (b : Bool) :
    (s.set_status_flag f b).absolute_address = s.absolute_address := by
  cases b <;> rfl

theorem CPU.sp_set_status_flag (s : CPU) (f : Nat) (b : Bool) :
    (s.set_status_flag f b).sp = s.sp := by
  cases b <;> rfl

theorem CPU.a_update_zero_negative_flags (s : CPU) (v : Nat) :
    (s.update_zero_negative_flags v).a = s.a := by
  simp only [CPU.update_zero_negative_flags, CPU.a_set_status_flag]

theorem CPU.bus_update_zero_negative_flags (s : CPU) (v : Nat) :
    (s.update_zero_negative_flags v).bus = s.bus := by
  simp only [CPU.update_zero_negative_flags, CPU.bus_set_status_flag]

theorem CPU.absolute_address_update_zero_negative_flags (s : CPU) (v : Nat) :
    (s.update_zero_negative_flags v).absolute_address = s.absolute_address := by
  simp only [CPU.update_zero_negative_flags, CPU.absolute_address_set_status_flag]

/-- Reading back the very flag that `set_status_flag` just set (for a
flag byte that its own complement masks out, i.e. any real flag). -/
theorem CPU.get_set_status_flag_same (s : CPU) {f : Nat} (b : Bool) (hne : f ≠ 0)
    (hrem : (0xFF ^^^ f) &&& f = 0) :
    (s.set_status_flag f b).get_status_flag f = b := by
  cases b
  · show Status.contains ((s.set_status_flag f false).status) f = false
    have hst : (s.set_status_flag f false).status = s.status &&& (0xFF ^^^ f) := rfl
    rw [hst, Status.contains, Nat.and_assoc, hrem, Nat.and_zero]
    rw [beq_eq_false_iff_ne]
    exact hne.symm
  · show Status.contains ((s.set_status_flag f true).status) f = true
    have hst : (s.set_status_flag f true).status = s.status ||| f := rfl
    rw [hst, Status.contains, or_and_self]
    simp

/-- Setting one flag does not change the reading of a disjoint flag. -/
theorem CPU.get_set_status_flag_other (s : CPU) {f g : Nat} (b : Bool)
    (hfg : f &&& g = 0) (hcg : (0xFF ^^^ f) &&& g = g) :
    (s.set_status_flag f b).get_status_flag g = s.get_status_flag g := by
  cases b
  · show Status.contains (s.status &&& (0xFF ^^^ f)) g = Status.contains s.status g
    rw [Status.contains, Status.contains, Nat.and_assoc, hcg]
  · show Status.contains (s.status ||| f) g = Status.contains s.status g
    rw [Status.contains, Status.contains, Nat.and_distrib_right, hfg, Nat.or_zero]

theorem CPU.get_update_zero_negative_flags_carry (s : CPU) (v : Nat) :
    (s.update_zero_negative_flags v).get_status_flag Status.CARRY =
      s.get_status_flag Status.CARRY := by
  rw [CPU.update_zero_negative_flags,
    CPU.get_set_status_flag_other _ _ (by decide) (by decide),
    CPU.get_set_status_flag_other _ _ (by decide) (by decide)]

/-! ## C8: ADC followed by SBC. -/

/-- The CPU state quantified over by C8: accumulator `A`, initial carry
`C` over the power-on status `U|I`, and a 64 KiB RAM holding the operand
byte `M` in every cell, with the operand address already resolved. -/
def adcState (A M : Nat) (C : Bool) : CPU :=
  { a := A, x := 0, y := 0, sp := 0xFD, pc := 0,
    status := if C then Status.UNUSED ||| Status.INTERRUPT ||| Status.CARRY
              else Status.UNUSED ||| Status.INTERRUPT,
    bus := ⟨⟨65536, fun _ => M⟩⟩, cycles := 0, absolute_address := 0x0010,
    relative_address := 0 }

theorem adcState_carry (A M : Nat) (C : Bool) :
    (adcState A M C).get_status_flag Status.CARRY = C := by
  cases C <;>
    simp [adcState, CPU.get_status_flag, Status.contains, Status.UNUSED, Status.INTERRUPT,
      Status.CARRY]

/-- What ADC does to the accumulator, the carry flag, the bus and the
resolved address, for any state whose bus is the constant-`M` RAM and
whose resolved operand address lands in the `Bus` read window. -/
theorem adc_effects (s : CPU) (M : Nat) (hbus : s.bus = ⟨⟨65536, fun _ => M⟩⟩)
    (haddr : s.absolute_address = 0x0010) :
    (s.execute_instruction .ADC .Immediate).a =
      (s.a + M + (if s.get_status_flag Status.CARRY then 1 else 0)) % 256 ∧
    (s.execute_instruction .ADC .Immediate).get_status_flag Status.CARRY =
      decide (s.a + M + (if s.get_status_flag Status.CARRY then 1 else 0) > 0xFF) ∧
    (s.execute_instruction .ADC .Immediate).bus = s.bus ∧
    (s.execute_instruction .ADC .Immediate).absolute_address = s.absolute_address := by
  have hread : s.bus.read s.absolute_address = M := by
    rw [hbus, haddr]
    simp [Bus.read, RAM.read, RAM.get_index, Bus.RAM_ADDRESS_LO, Bus.RAM_ADDRESS_HI]
  refine ⟨?_, ?_, ?_, ?_⟩
  · simp only [CPU.execute_instruction, hread, CPU.a_update_zero_negative_flags]
  · simp only [CPU.execute_instruction, hread]
    rw [CPU.get_update_zero_negative_flags_carry]
    show (((s.set_status_flag Status.CARRY _).set_status_flag Status.OVERFLOW
      _).get_status_flag Status.CARRY) = _
    rw [CPU.get_set_status_flag_other _ _ (by decide) (by decide),
      CPU.get_set_status_flag_same _ _ (by decide) (by decide)]
  · simp only [CPU.execute_instruction, hread, CPU.bus_update_zero_negative_flags,
      CPU.bus_set_status_flag]
  · simp only [CPU.execute_instruction, hread,
      CPU.absolute_address_update_zero_negative_flags,
      CPU.absolute_address_set_status_flag]

/-- What SBC does to the accumulator, for any state whose bus is the
constant-`M` RAM and whose resolved operand address lands in the `Bus`
read window. -/
theorem sbc_a (s : CPU) (M : Nat) (hbus : s.bus = ⟨⟨65536, fun _ => M⟩⟩)
    (haddr : s.absolute_address = 0x0010) :
    (s.execute_instruction .SBC .Immediate).a =
      i16_as_u16 ((s.a : Int) - (M : Int) -
        (1 - (if s.get_status_flag Status.CARRY then 1 else 0))) % 256 := by
  have hread : s.bus.read s.absolute_address = M := by
    rw [hbus, haddr]
    simp [Bus.read, RAM.read, RAM.get_index, Bus.RAM_ADDRESS_LO, Bus.RAM_ADDRESS_HI]
  simp only [CPU.execute_instruction, hread, CPU.a_update_zero_negative_flags]

/-- C8 (counterexample): with A = 0, M = 0 and carry clear, `ADC 0` then
`SBC 0` leaves the accumulator at `$FF`, not the original 0. -/
theorem c8_counterexample :
    (((adcState 0 0 false).execute_instruction .ADC .Immediate).execute_instruction
      .SBC .Immediate).a = 0xFF := by decide

/-- C8 (amended): ADC followed by SBC with the same operand yields
`(A + C_in + C_out + 255) mod 256`, where `C_out` is the carry ADC
produced; the accumulator is restored exactly when `C_in + C_out = 1`,
i.e. when the addition's carry-out differs from the initial carry. -/
theorem c8_adc_sbc_carry_relation (A M : Nat) (C : Bool) (hA : A < 256) (hM : M < 256) :
    (((adcState A M C).execute_instruction .ADC .Immediate).execute_instruction
        .SBC .Immediate).a =
      (A + (if C then 1 else 0) +
        (if A + M + (if C then 1 else 0) > 0xFF then 1 else 0) + 255) % 256 ∧
    ((((adcState A M C).execute_instruction .ADC .Immediate).execute_instruction
        .SBC .Immediate).a = A ↔
      (if C then 1 else 0) + (if A + M + (if C then 1 else 0) > 0xFF then 1 else 0) = 1) := by
  obtain ⟨ha1, hc1, hb1, ha2⟩ := adc_effects (adcState A M C) M rfl rfl
  rw [adcState_carry] at ha1 hc1
  rw [show (adcState A M C).a = A from rfl] at ha1 hc1
  have hmain :
      (((adcState A M C).execute_instruction .ADC .Immediate).execute_instruction
        .SBC .Immediate).a =
      (A + (if C then 1 else 0) +
        (if A + M + (if C then 1 else 0) > 0xFF then 1 else 0) + 255) % 256 := by
    rw [sbc_a _ M hb1 ha2, ha1, hc1, i16_as_u16]
    have ht : (if C then 1 else 0) ≤ 1 := by cases C <;> simp
    by_cases hco : A + M + (if C then 1 else 0) > 0xFF
    · rw [if_pos (decide_eq_true hco), if_pos hco]
      omega
    · have hnc : ¬(decide (A + M + (if C then 1 else 0) > 0xFF) = true) := by
        simp only [decide_eq_true_eq]
        exact hco
      rw [if_neg hnc, if_neg hco]
      omega
  refine ⟨hmain, ?_⟩
  rw [hmain]
  have ht : (if C then 1 else 0) ≤ 1 := by cases C <;> simp
  by_cases hco : A + M + (if C then 1 else 0) > 0xFF
  · rw [if_pos hco]
    exact ⟨fun h => by omega, fun h => by omega⟩
  · rw [if_neg hco]
    exact ⟨fun h => by omega, fun h => by omega⟩

/-- C8 (witness): the amended relation at A = 5, M = 3, carry set. -/
theorem c8_witness :
    (((adcState 5 3 true).execute_instruction .ADC .Immediate).execute_instruction
        .SBC .Immediate).a =
      (5 + (if true then 1 else 0) +
        (if 5 + 3 + (if true then 1 else 0) > 0xFF then 1 else 0) + 255) % 256 ∧
    ((((adcState 5 3 true).execute_instruction .ADC .Immediate).execute_instruction
        .SBC .Immediate).a = 5 ↔
      (if true then 1 else 0) + (if 5 + 3 + (if true then 1 else 0) > 0xFF then 1 else 0) = 1) :=
  c8_adc_sbc_carry_relation 5 3 true (by decide) (by decide)

/-! ## C9: stack round trips. -/

/-- Pushing a sequence of bytes with repeated `write_to_stack`
(first element pushed first). -/
def CPU.push_list (s : CPU) (l : List Nat) : CPU :=
  l.foldl CPU.write_to_stack s

/-- Popping `n` bytes with repeated `read_from_stack` (pops listed in
pop order). -/
def CPU.pop_list : CPU → Nat → List Nat × CPU
  | s, 0 => ([], s)
  | s, n + 1 =>
    let p := s.read_from_stack
    let q := CPU.pop_list p.2 n
    (p.1 :: q.1, q.2)

theorem lor256 : ∀ sp : Nat, sp < 256 → 256 ||| sp = 256 + sp := by decide

theorem push_list_nil (s : CPU) : s.push_list [] = s := rfl

theorem push_list_cons (s : CPU) (v : Nat) (t : List Nat) :
    s.push_list (v :: t) = (s.write_to_stack v).push_list t := rfl

theorem write_to_stack_sp (s : CPU) (v : Nat) :
    (s.write_to_stack v).sp = wrapping_sub8 s.sp 1 := rfl

theorem write_to_stack_size (s : CPU) (v : Nat) :
    (s.write_to_stack v).bus.ram.size = s.bus.ram.size := rfl

theorem read_from_stack_eq (s : CPU) :
    s.read_from_stack =
      (s.bus.read (STACK_POINTER_ADDRESS ||| wrapping_add8 s.sp 1),
       { s with sp := wrapping_add8 s.sp 1 }) := rfl

/-- A stack push is read back at the stack address it wrote. -/
theorem write_to_stack_read_same (s : CPU) (v : Nat) (hsp : s.sp < 256) :
    (s.write_to_stack v).bus.read (256 + s.sp) = v := by
  have hst : CPU.get_stack_address s = 256 + s.sp := by
    rw [CPU.get_stack_address, STACK_POINTER_ADDRESS, lor256 s.sp hsp]
  show Bus.read (s.bus.write s.get_stack_address v) (256 + s.sp) = v
  rw [hst, Bus.read,
    if_pos (by simp only [Bus.RAM_ADDRESS_LO, Bus.RAM_ADDRESS_HI]; omega :
      Bus.RAM_ADDRESS_LO ≤ 256 + s.sp ∧ 256 + s.sp ≤ Bus.RAM_ADDRESS_HI)]
  show RAM.read (s.bus.ram.write (256 + s.sp) v) (256 + s.sp) = v
  rw [RAM.read, RAM.write]
  simp only [RAM.get_index]
  rw [if_pos trivial]

/-- A stack push leaves every other bus address unchanged. -/
theorem write_to_stack_read_other (s : CPU) (v a : Nat) (hsp : s.sp < 256)
    (hsize : s.bus.ram.size = 65536) (ha : a ≠ 256 + s.sp) :
    (s.write_to_stack v).bus.read a = s.bus.read a := by
  have hst : CPU.get_stack_address s = 256 + s.sp := by
    rw [CPU.get_stack_address, STACK_POINTER_ADDRESS, lor256 s.sp hsp]
  show Bus.read (s.bus.write s.get_stack_address v) a = s.bus.read a
  rw [hst, Bus.read, Bus.read]
  by_cases hb : Bus.RAM_ADDRESS_LO ≤ a ∧ a ≤ Bus.RAM_ADDRESS_HI
  · rw [if_pos hb, if_pos hb]
    show RAM.read (s.bus.ram.write (256 + s.sp) v) a = RAM.read s.bus.ram a
    rw [RAM.read, RAM.read, RAM.write]
    simp only [RAM.get_index, hsize]
    rw [if_neg]
    have hb2 : a ≤ 0x77F := by
      have := hb.2
      simpa [Bus.RAM_ADDRESS_HI] using this
    omega
  · rw [if_neg hb, if_neg hb]

/-- Pushing a sequence leaves every address outside the written stack
slots unchanged on the bus. -/
theorem push_list_read_outside (t : List Nat) : ∀ (s : CPU) (a : Nat),
    s.sp < 256 → s.bus.ram.size = 65536 →
    (∀ i, i < t.length → a ≠ 256 + ((s.sp + 255 * i) % 256)) →
    (s.push_list t).bus.read a = s.bus.read a := by
  induction t with
  | nil =>
    intro s a _ _ _
    rfl
  | cons u t ih =>
    intro s a hsp hsize hav
    rw [push_list_cons]
    have hsp1 : (s.write_to_stack u).sp < 256 := by
      rw [write_to_stack_sp, wrapping_sub8]
      omega
    have hsz1 : (s.write_to_stack u).bus.ram.size = 65536 := by
      rw [write_to_stack_size, hsize]
    have hav1 : ∀ i, i < t.length →
        a ≠ 256 + (((s.write_to_stack u).sp + 255 * i) % 256) := by
      intro i hi
      have h2 := hav (i + 1) (by simp only [List.length_cons]; omega)
      rw [write_to_stack_sp, wrapping_sub8]
      intro hcon
      apply h2
      rw [hcon]
      congr 1
      omega
    rw [ih (s.write_to_stack u) a hsp1 hsz1 hav1]
    have h0 := hav 0 (by simp only [List.length_cons]; omega)
    rw [show (s.sp + 255 * 0) % 256 = s.sp by omega] at h0
    exact write_to_stack_read_other s u a hsp hsize h0

theorem pop_list_succ_last (n : Nat) : ∀ s : CPU,
    s.pop_list (n + 1) =
      ((s.pop_list n).1 ++ [((s.pop_list n).2.read_from_stack).1],
       ((s.pop_list n).2.read_from_stack).2) := by
  induction n with
  | zero =>
    intro s
    simp [CPU.pop_list]
  | succ n ih =>
    intro s
    show (_ :: (CPU.pop_list _ (n + 1)).1, (CPU.pop_list _ (n + 1)).2) = _
    rw [ih]
    simp [CPU.pop_list]

/-- Pushing at most 256 bytes and popping them all again restores SP and
returns the bytes last-in-first-out; memory keeps the pushed bytes. -/
theorem push_then_pop (l : List Nat) : ∀ s : CPU, s.sp < 256 →
    s.bus.ram.size = 65536 → l.length ≤ 256 →
    (s.push_list l).pop_list l.length = (l.reverse, { s.push_list l with sp := s.sp }) := by
  induction l with
  | nil =>
    intro s hsp _ _
    rfl
  | cons v t ih =>
    intro s hsp hsize hlen
    have hsp1 : (s.write_to_stack v).sp < 256 := by
      rw [write_to_stack_sp, wrapping_sub8]
      omega
    have hsz1 : (s.write_to_stack v).bus.ram.size = 65536 := by
      rw [write_to_stack_size, hsize]
    have hlt : t.length ≤ 256 := by
      simp only [List.length_cons] at hlen
      omega
    have iht := ih (s.write_to_stack v) hsp1 hsz1 hlt
    rw [push_list_cons]
    show CPU.pop_list ((s.write_to_stack v).push_list t) (t.length + 1) = _
    rw [pop_list_succ_last, iht]
    rw [read_from_stack_eq]
    have hsp2 : wrapping_add8 (s.write_to_stack v).sp 1 = s.sp := by
      rw [write_to_stack_sp, wrapping_sub8, wrapping_add8]
      omega
    simp only [hsp2]
    have hread : ((s.write_to_stack v).push_list t).bus.read
        (STACK_POINTER_ADDRESS ||| s.sp) = v := by
      rw [STACK_POINTER_ADDRESS, lor256 s.sp hsp]
      rw [push_list_read_outside t (s.write_to_stack v) (256 + s.sp) hsp1 hsz1 ?_]
      · exact write_to_stack_read_same s v hsp
      · intro i hi
        rw [write_to_stack_sp, wrapping_sub8]
        have hi255 : i + 1 < 256 := by
          simp only [List.length_cons] at hlen
          omega
        omega
    rw [hread]
    rw [List.reverse_cons]

/-- The all-zero-RAM CPU with SP = 0 (spec scenario 5). -/
def spZeroCPU : CPU := { irqClearCPU with sp := 0 }

/-- The 257-byte sequence refuting unbounded LIFO: a 1 followed by 256
zeroes. -/
def longPushList : List Nat := 1 :: List.replicate 256 0

/-- C9 (counterexample): pushing 257 bytes and popping 257 does NOT
return the pushed bytes in LIFO order — the 257th push has overwritten
the first pushed byte (SP is still restored). -/
theorem c9_counterexample :
    (CPU.pop_list (CPU.push_list irqClearCPU longPushList) 257).1 ≠
      longPushList.reverse := by decide

/-- C9 (amended): for every starting state and every sequence of at most
256 bytes, pushing them all and popping the same number restores SP and
yields the bytes in LIFO order (the claim fails only beyond 256 pushes,
where the stack page wraps onto itself); and with SP = $00 a push writes
$0100 leaving SP = $FF, while a pop with SP = $FF reads $0100 leaving
SP = $00. -/
theorem c9_stack_round_trip (s : CPU) (l : List Nat) (hsp : s.sp < 256)
    (hsize : s.bus.ram.size = 65536) (hlen : l.length ≤ 256) :
    ((s.push_list l).pop_list l.length =
      (l.reverse, { s.push_list l with sp := s.sp })) ∧
    ((s.push_list l).pop_list l.length).2.sp = s.sp ∧
    (spZeroCPU.write_to_stack 9).bus.ram.memory 0x0100 = 9 ∧
    (spZeroCPU.write_to_stack 9).sp = 0xFF ∧
    (CPU.read_from_stack { spZeroCPU with sp := 0xFF }).1 =
      Bus.read { spZeroCPU with sp := 0xFF }.bus 0x0100 ∧
    (CPU.read_from_stack { spZeroCPU with sp := 0xFF }).2.sp = 0 := by
  have h := push_then_pop l s hsp hsize hlen
  exact ⟨h, by rw [h], by decide, by decide, by decide, by decide⟩

/-- C9 (witness): the round trip at SP = $FD with the three bytes
5, 6, 7. -/
theorem c9_witness :
    ((irqClearCPU.push_list [5, 6, 7]).pop_list 3 =
      ([7, 6, 5], { irqClearCPU.push_list [5, 6, 7] with sp := 0xFD })) ∧
    ((irqClearCPU.push_list [5, 6, 7]).pop_list 3).2.sp = 0xFD ∧
    (spZeroCPU.write_to_stack 9).bus.ram.memory 0x0100 = 9 ∧
    (spZeroCPU.write_to_stack 9).sp = 0xFF ∧
    (CPU.read_from_stack { spZeroCPU with sp := 0xFF }).1 =
      Bus.read { spZeroCPU with sp := 0xFF }.bus 0x0100 ∧
    (CPU.read_from_stack { spZeroCPU with sp := 0xFF }).2.sp = 0 :=
  c9_stack_round_trip irqClearCPU [5, 6, 7] (by decide) (by decide) (by decide)

/-! ## C10: the Unused status bit. -/

/-- The states reachable from construction by `clock`, `reset`, `irq`
and `nmi`, for an arbitrary opcode table `decode` (the real table lives
in the `instructions` module; quantifying over every table covers it). -/
inductive Reachable (decode : Nat → Option Opcode) : CPU → Prop where
  | new (bus : Bus) : Reachable decode (CPU.new bus)
  | clock {s : CPU} : Reachable decode s → Reachable decode (CPU.clock decode s).1
  | reset {s : CPU} : Reachable decode s → Reachable decode s.reset
  | irq {s : CPU} : Reachable decode s → Reachable decode s.irq
  | nmi {s : CPU} : Reachable decode s → Reachable decode s.nmi

/-- The Unused bit is set in a status byte. -/
def U (st : Nat) : Prop := st &&& Status.UNUSED = Status.UNUSED

theorem U_insert {st : Nat} (f : Nat) (h : U st) : U (st ||| f) := by
  show (st ||| f) &&& Status.UNUSED = Status.UNUSED
  rw [Nat.and_distrib_right, h]
  have h32 : f &&& Status.UNUSED = (f.testBit 5).toNat * 2 ^ 5 := by
    rw [show Status.UNUSED = 2 ^ 5 from rfl]
    exact Nat.and_two_pow f 5
  cases hb : f.testBit 5 <;> rw [h32, hb] <;> rfl

theorem U_remove {st : Nat} (f : Nat) (hf : (0xFF ^^^ f) &&& Status.UNUSED = Status.UNUSED)
    (h : U st) : U (st &&& (0xFF ^^^ f)) := by
  show (st &&& (0xFF ^^^ f)) &&& Status.UNUSED = Status.UNUSED
  rw [Nat.and_assoc, hf]
  exact h

theorem U_set_status_flag (s : CPU) (f : Nat) (b : Bool)
    (hf : (0xFF ^^^ f) &&& Status.UNUSED = Status.UNUSED) (h : U s.status) :
    U (s.set_status_flag f b).status := by
  cases b
  · exact U_remove f hf h
  · exact U_insert f h

theorem U_set_unused_true (s : CPU) :
    U (s.set_status_flag Status.UNUSED true).status := by
  show (s.status ||| Status.UNUSED) &&& Status.UNUSED = Status.UNUSED
  exact or_and_self s.status Status.UNUSED

theorem U_update_zero_negative_flags (s : CPU) (v : Nat) (h : U s.status) :
    U (s.update_zero_negative_flags v).status :=
  U_set_status_flag _ _ _ (by decide) (U_set_status_flag _ _ _ (by decide) h)

theorem U_write_a_or_absolute (s : CPU) (mode : AddressingMode) (v : Nat)
    (h : U s.status) : U (s.write_a_or_absolute mode v).status := by
  cases mode <;> exact h

theorem status_execute_addressing_mode (s : CPU) (mode : AddressingMode) :
    (s.execute_addressing_mode mode).status = s.status := by
  cases mode <;> rfl

theorem U_execute_instruction (s : CPU) (instr : Instruction) (mode : AddressingMode)
    (h : U s.status) : U (s.execute_instruction instr mode).status := by
  cases instr with
  | NOP => exact h
  | CLC => exact U_set_status_flag _ _ _ (by decide) h
  | CLD => exact U_set_status_flag _ _ _ (by decide) h
  | CLI => exact U_set_status_flag _ _ _ (by decide) h
  | CLV => exact U_set_status_flag _ _ _ (by decide) h
  | SEC => exact U_set_status_flag _ _ _ (by decide) h
  | SED => exact U_set_status_flag _ _ _ (by decide) h
  | SEI => exact U_set_status_flag _ _ _ (by decide) h
  | TAX => exact U_update_zero_negative_flags _ _ h
  | TAY => exact U_update_zero_negative_flags _ _ h
  | TXA => exact U_update_zero_negative_flags _ _ h
  | TYA => exact U_update_zero_negative_flags _ _ h
  | TSX => exact U_update_zero_negative_flags _ _ h
  | TXS => exact h
  | INX => exact U_update_zero_negative_flags _ _ h
  | INY => exact U_update_zero_negative_flags _ _ h
  | DEX => exact U_update_zero_negative_flags _ _ h
  | DEY => exact U_update_zero_negative_flags _ _ h
  | LDA => exact U_update_zero_negative_flags _ _ h
  | LDX => exact U_update_zero_negative_flags _ _ h
  | LDY => exact U_update_zero_negative_flags _ _ h
  | STA => exact h
  | STX => exact h
  | STY => exact h
  | AND => exact U_update_zero_negative_flags _ _ h
  | ORA => exact U_update_zero_negative_flags _ _ h
  | EOR => exact U_update_zero_negative_flags _ _ h
  | CMP => exact U_update_zero_negative_flags _ _ (U_set_status_flag _ _ _ (by decide) h)
  | CPX => exact U_update_zero_negative_flags _ _ (U_set_status_flag _ _ _ (by decide) h)
  | CPY => exact U_update_zero_negative_flags _ _ (U_set_status_flag _ _ _ (by decide) h)
  | BCS =>
    show U ((if s.get_status_flag Status.CARRY = true then s.take_branch else s).status)
    split <;> exact h
  | BCC =>
    show U ((if (!s.get_status_flag Status.CARRY) = true then s.take_branch else s).status)
    split <;> exact h
  | BEQ =>
    show U ((if s.get_status_flag Status.ZERO = true then s.take_branch else s).status)
    split <;> exact h
  | BMI =>
    show U ((if s.get_status_flag Status.NEGATIVE = true then s.take_branch else s).status)
    split <;> exact h
  | BNE =>
    show U ((if (!s.get_status_flag Status.ZERO) = true then s.take_branch else s).status)
    split <;> exact h
  | BPL =>
    show U ((if (!s.get_status_flag Status.NEGATIVE) = true then s.take_branch else s).status)
    split <;> exact h
  | BVC =>
    show U ((if (!s.get_status_flag Status.OVERFLOW) = true then s.take_branch else s).status)
    split <;> exact h
  | BVS =>
    show U ((if s.get_status_flag Status.OVERFLOW = true then s.take_branch else s).status)
    split <;> exact h
  | ADC =>
    exact U_update_zero_negative_flags _ _
      (U_set_status_flag _ _ _ (by decide) (U_set_status_flag _ _ _ (by decide) h))
  | SBC =>
    exact U_update_zero_negative_flags _ _
      (U_set_status_flag _ _ _ (by decide) (U_set_status_flag _ _ _ (by decide) h))
  | ASL =>
    exact U_update_zero_negative_flags _ _
      (U_write_a_or_absolute _ _ _ (U_set_status_flag _ _ _ (by decide) h))
  | LSR =>
    exact U_update_zero_negative_flags _ _
      (U_write_a_or_absolute _ _ _ (U_set_status_flag _ _ _ (by decide) h))
  | ROL =>
    exact U_write_a_or_absolute _ _ _
      (U_update_zero_negative_flags _ _ (U_set_status_flag _ _ _ (by decide) h))
  | ROR =>
    exact U_write_a_or_absolute _ _ _
      (U_update_zero_negative_flags _ _ (U_set_status_flag _ _ _ (by decide) h))
  | INC => exact U_update_zero_negative_flags _ _ h
  | DEC => exact U_update_zero_negative_flags _ _ h
  | JMP => exact h
  | PHA => exact h
  | PHP => exact h
  | PLA => exact U_update_zero_negative_flags _ _ h
  | PLP => exact U_set_unused_true _
  | JSR => exact h
  | RTS => exact h
  | RTI => exact U_set_unused_true _
  | BRK => exact U_set_status_flag _ _ _ (by decide) h
  | BIT =>
    exact U_set_status_flag _ _ _ (by decide)
      (U_set_status_flag _ _ _ (by decide) (U_update_zero_negative_flags _ _ h))

theorem U_clock (decode : Nat → Option Opcode) (s : CPU) (h : U s.status) :
    U ((CPU.clock decode s).1).status := by
  rw [CPU.clock]
  split
  · dsimp only
    split
    · exact U_execute_instruction _ _ _
        ((status_execute_addressing_mode _ _).symm ▸ h)
    · exact h
  · exact h

theorem U_reset (s : CPU) : U s.reset.status :=
  (by decide : Status.UNUSED &&& Status.UNUSED = Status.UNUSED)

theorem U_irq (s : CPU) (h : U s.status) : U s.irq.status := by
  rw [CPU.irq]
  split
  · exact h
  · exact U_set_status_flag _ _ _ (by decide) h

theorem U_nmi (s : CPU) (h : U s.status) : U s.nmi.status :=
  U_set_status_flag _ _ _ (by decide) h

theorem U_reachable (decode : Nat → Option Opcode) (s : CPU)
    (h : Reachable decode s) : U s.status := by
  induction h with
  | new bus =>
    exact (by decide :
      (Status.UNUSED ||| Status.INTERRUPT) &&& Status.UNUSED = Status.UNUSED)
  | clock _ ih => exact U_clock _ _ ih
  | reset _ _ => exact U_reset _
  | irq _ ih => exact U_irq _ ih
  | nmi _ ih => exact U_nmi _ ih

/-- C10 (confirmed): in every state reachable from construction by any
sequence of `clock`, `reset`, `irq` and `nmi` calls (under any opcode
table), the Unused status bit reads as set; consequently the status
byte materialized onto the stack by PHP and BRK (`status | B | U`), by
NMI (`status | U`) and by IRQ (the raw status byte) all have the U bit
set. -/
theorem c10_unused_bit_invariant (decode : Nat → Option Opcode) (s : CPU)
    (h : Reachable decode s) :
    s.get_status_flag Status.UNUSED = true ∧
    (s.status ||| Status.BREAK ||| Status.UNUSED) &&& Status.UNUSED = Status.UNUSED ∧
    (s.status ||| Status.UNUSED) &&& Status.UNUSED = Status.UNUSED ∧
    s.status &&& Status.UNUSED = Status.UNUSED := by
  have hU : U s.status := U_reachable decode s h
  refine ⟨?_, or_and_self _ _, or_and_self _ _, hU⟩
  show (s.status &&& Status.UNUSED == Status.UNUSED) = true
  rw [beq_iff_eq]
  exact hU

/-- C10 (witness): the invariant at the freshly constructed CPU over the
all-zero bus. -/
theorem c10_witness :
    (CPU.new zeroBus).get_status_flag Status.UNUSED = true ∧
    ((CPU.new zeroBus).status ||| Status.BREAK ||| Status.UNUSED) &&& Status.UNUSED =
      Status.UNUSED ∧
    ((CPU.new zeroBus).status ||| Status.UNUSED) &&& Status.UNUSED = Status.UNUSED ∧
    (CPU.new zeroBus).status &&& Status.UNUSED = Status.UNUSED :=
  c10_unused_bit_invariant Opcode.decode_modelled (CPU.new zeroBus) (Reachable.new zeroBus)

end Nes
